import Mathlib

/-!
Verification development for the compass Session Stream Orchestrator.

The definitions below are a shallow embedding of the orchestrator's source:
`src/handlers/stream.ts` (NDJSON event parser, tool lifecycle, Slack sink),
`assistant.js` (admission guard, session-token resolution), the `$cwd`
handlers (`assistant.js`, `app.ts`) and the sqlite-backed session store
(`db.ts`).  JavaScript runtime values are modelled by `JsValue`, JavaScript
strings by Lean `String`/`List Char`, and `JSON.parse` by the executable
`parseJson` below.
-/

set_option maxRecDepth 10000

namespace Compass

/-- Model of a JavaScript runtime value as it occurs in the handler code:
JSON values plus `undefined`.  Non-integral JSON numbers are kept as their
raw character form (`numRaw`); every number the handlers inspect is
integral. -/
inductive JsValue where
  | null
  | jsUndefined
  | bool (b : Bool)
  | num (n : Int)
  | numRaw (s : List Char)
  | str (s : String)
  | arr (elems : List JsValue)
  | obj (fields : List (String × JsValue))
deriving Repr

mutual

/-- Structural equality of modelled JS values (JavaScript `===` on the
primitive values the handlers compare, and `Map` key equality). -/
def beqJs : JsValue → JsValue → Bool
  | .null, .null => true
  | .jsUndefined, .jsUndefined => true
  | .bool a, .bool b => a == b
  | .num a, .num b => a == b
  | .numRaw a, .numRaw b => a == b
  | .str a, .str b => a == b
  | .arr a, .arr b => beqJsList a b
  | .obj a, .obj b => beqJsFields a b
  | _, _ => false

def beqJsList : List JsValue → List JsValue → Bool
  | [], [] => true
  | a :: as', b :: bs' => beqJs a b && beqJsList as' bs'
  | _, _ => false

def beqJsFields : List (String × JsValue) → List (String × JsValue) → Bool
  | [], [] => true
  | (ka, va) :: as', (kb, vb) :: bs' => ka == kb && beqJs va vb && beqJsFields as' bs'
  | _, _ => false

end

instance : BEq JsValue := ⟨beqJs⟩

namespace JsValue

/-- JavaScript truthiness.  For `numRaw` only the mantissa decides
(a nonzero digit before the exponent marker makes the value nonzero). -/
def truthy : JsValue → Bool
  | .null => false
  | .jsUndefined => false
  | .bool b => b
  | .num n => n != 0
  | .numRaw s =>
      (s.takeWhile (fun c => c != 'e' && c != 'E')).any (fun c => c.isDigit && c != '0')
  | .str s => s ≠ ""
  | .arr _ => true
  | .obj _ => true

/-- Last binding of a key in an object's field list (`JSON.parse` keeps the
last duplicate key, and lookups see that value). -/
def lookupLast (fields : List (String × JsValue)) (k : String) : Option JsValue :=
  match fields with
  | [] => none
  | (k2, v) :: rest =>
      match lookupLast rest k with
      | some w => some w
      | none => if k2 = k then some v else none

/-- JavaScript property access `v.k`: throws (`.error`) on `null`/`undefined`,
yields `undefined` for absent properties, and exposes `length` on strings
and arrays. -/
def getProp : JsValue → String → Except Unit JsValue
  | .null, _ => .error ()
  | .jsUndefined, _ => .error ()
  | .obj fs, k => .ok ((lookupLast fs k).getD .jsUndefined)
  | .str s, k => .ok (if k = "length" then .num s.length else .jsUndefined)
  | .arr xs, k => .ok (if k = "length" then .num xs.length else .jsUndefined)
  | _, _ => .ok .jsUndefined

/-- Optional chaining `v?.k`. -/
def optChain (v : JsValue) (k : String) : JsValue :=
  match v with
  | .null => .jsUndefined
  | .jsUndefined => .jsUndefined
  | _ => match v.getProp k with
    | .ok w => w
    | .error _ => .jsUndefined

/-- Optional element access `v?.[i]`. -/
def optIndex (v : JsValue) (i : Nat) : JsValue :=
  match v with
  | .null => .jsUndefined
  | .jsUndefined => .jsUndefined
  | .arr xs => xs.getD i .jsUndefined
  | .obj fs => (lookupLast fs (toString i)).getD .jsUndefined
  | .str s => if i < s.toList.length then .str (String.mk [s.toList.getD i ' ']) else .jsUndefined
  | _ => .jsUndefined

/-- JavaScript logical-or `a || b`: the left operand when truthy, otherwise
the right operand. -/
def jsOr (a b : JsValue) : JsValue := if a.truthy then a else b

mutual

/-- String coercion as performed by template literals. -/
def jsToString : JsValue → String
  | .null => "null"
  | .jsUndefined => "undefined"
  | .bool b => if b then "true" else "false"
  | .num n => toString n
  | .numRaw s => String.mk s
  | .str s => s
  | .arr xs => String.intercalate "," (jsToStringElems xs)
  | .obj _ => "[object Object]"

/-- Array elements under `Array.prototype.toString`: `null`/`undefined`
become empty strings. -/
def jsToStringElems : List JsValue → List String
  | [] => []
  | v :: rest =>
      (match v with
        | .null => ""
        | .jsUndefined => ""
        | w => jsToString w) :: jsToStringElems rest

end

/-- Strict string-equality test `v === "lit"`. -/
def isStr (v : JsValue) (lit : String) : Bool := v == .str lit

end JsValue

/-! ## JSON.stringify (used by `extractToolOutput` on non-string content) -/

/-- Escape one character for a JSON string literal. -/
def jsonEscapeChar (c : Char) : String :=
  if c = '"' then "\\\""
  else if c = '\\' then "\\\\"
  else if c = '\n' then "\\n"
  else if c = '\r' then "\\r"
  else if c = '\t' then "\\t"
  else if c = '\x08' then "\\b"
  else if c = '\x0c' then "\\f"
  else if c.toNat < 32 then
    "\\u00" ++ String.mk [Nat.digitChar (c.toNat / 16), Nat.digitChar (c.toNat % 16)]
  else String.mk [c]

/-- Quote a string as a JSON string literal. -/
def jsonQuote (s : String) : String :=
  "\"" ++ String.join (s.toList.map jsonEscapeChar) ++ "\""

mutual

/-- `JSON.stringify` on the values reaching it in the handlers (parsed JSON;
`undefined` never reaches it from `JSON.parse` output). -/
def jsonStringify : JsValue → String
  | .null => "null"
  | .jsUndefined => "null"
  | .bool b => if b then "true" else "false"
  | .num n => toString n
  | .numRaw s => String.mk s
  | .str s => jsonQuote s
  | .arr xs => "[" ++ String.intercalate "," (jsonStringifyElems xs) ++ "]"
  | .obj fs => "\x7b" ++ String.intercalate "," (jsonStringifyFields fs) ++ "\x7d"

def jsonStringifyElems : List JsValue → List String
  | [] => []
  | v :: rest => jsonStringify v :: jsonStringifyElems rest

def jsonStringifyFields : List (String × JsValue) → List String
  | [] => []
  | (k, v) :: rest => (jsonQuote k ++ ":" ++ jsonStringify v) :: jsonStringifyFields rest

end

/-! ## JSON.parse

An executable model of `JSON.parse`, written over `List Char`.  The value
grammar follows RFC 8259: objects, arrays, strings with escapes, numbers,
and the three literals.  A failed parse is `none` (the handler's
`try { JSON.parse(line) } catch` path). -/

/-- JSON insignificant whitespace. -/
def jsonWs (c : Char) : Bool := c = ' ' ∨ c = '\t' ∨ c = '\n' ∨ c = '\r'

/-- Skip leading JSON whitespace. -/
def skipWs : List Char → List Char
  | [] => []
  | c :: rest => if jsonWs c then skipWs rest else c :: rest

/-- Hex digit value, if any. -/
def hexVal (c : Char) : Option Nat :=
  if '0' ≤ c ∧ c ≤ '9' then some (c.toNat - '0'.toNat)
  else if 'a' ≤ c ∧ c ≤ 'f' then some (c.toNat - 'a'.toNat + 10)
  else if 'A' ≤ c ∧ c ≤ 'F' then some (c.toNat - 'A'.toNat + 10)
  else none

/-- Body of a JSON string literal after the opening quote; returns the
decoded string and the remaining input. -/
def parseStringBody (acc : List Char) : List Char → Option (String × List Char)
  | [] => none
  | '"' :: rest => some (String.mk acc.reverse, rest)
  | '\\' :: esc => match esc with
    | '"' :: rest => parseStringBody ('"' :: acc) rest
    | '\\' :: rest => parseStringBody ('\\' :: acc) rest
    | '/' :: rest => parseStringBody ('/' :: acc) rest
    | 'b' :: rest => parseStringBody ('\x08' :: acc) rest
    | 'f' :: rest => parseStringBody ('\x0c' :: acc) rest
    | 'n' :: rest => parseStringBody ('\n' :: acc) rest
    | 'r' :: rest => parseStringBody ('\r' :: acc) rest
    | 't' :: rest => parseStringBody ('\t' :: acc) rest
    | 'u' :: h1 :: h2 :: h3 :: h4 :: rest =>
        match hexVal h1, hexVal h2, hexVal h3, hexVal h4 with
        | some a, some b, some c, some d =>
            parseStringBody (Char.ofNat (((a * 16 + b) * 16 + c) * 16 + d) :: acc) rest
        | _, _, _, _ => none
    | _ => none
  | c :: rest => if c.toNat < 32 then none else parseStringBody (c :: acc) rest

/-- One-or-more decimal digits; returns them and the rest. -/
def takeDigits (s : List Char) : List Char × List Char :=
  match s with
  | c :: rest =>
      if c.isDigit then
        let (ds, r) := takeDigits rest
        (c :: ds, r)
  else ([], s)
  | [] => ([], s)

/-- Digits to a natural number (most significant first). -/
def digitsToNat (ds : List Char) : Nat :=
  ds.foldl (fun n c => n * 10 + (c.toNat - '0'.toNat)) 0

/-- JSON number after an optional leading minus has been recorded.
Integral numbers become `.num`; numbers with a fraction or exponent keep
their raw text as `.numRaw`. -/
def parseNumber (s : List Char) : Option (JsValue × List Char) :=
  let (neg, s1) := match s with
    | '-' :: rest => (true, rest)
    | _ => (false, s)
  match s1 with
  | c :: rest =>
    if c = '0' then
      finishNumber neg ['0'] rest
    else if c.isDigit then
      let (ds, r) := takeDigits rest
      finishNumber neg (c :: ds) r
    else none
  | [] => none
where
  /-- Optional fraction and exponent; assembles the value. -/
  finishNumber (neg : Bool) (intDigits : List Char) (s : List Char) :
      Option (JsValue × List Char) :=
    let (fracDigits, s2) := match s with
      | '.' :: rest =>
          let (ds, r) := takeDigits rest
          (ds, if ds.isEmpty then [] else r)
      | _ => ([], s)
    if (match s with | '.' :: _ => fracDigits.isEmpty | _ => false : Bool) then none
    else
      let (expChars, s3) := match s2 with
        | e :: rest =>
            if e = 'e' ∨ e = 'E' then
              match rest with
              | sign :: rest2 =>
                  if sign = '+' ∨ sign = '-' then
                    let (ds, r) := takeDigits rest2
                    (if ds.isEmpty then [] else e :: sign :: ds, if ds.isEmpty then s2 else r)
                  else
                    let (ds, r) := takeDigits rest
                    (if ds.isEmpty then [] else e :: ds, if ds.isEmpty then s2 else r)
              | [] => ([], s2)
            else ([], s2)
        | [] => ([], s2)
      if (match s2 with
          | e :: _ => (e == 'e' || e == 'E') && expChars.isEmpty
          | [] => false : Bool) then none
      else if fracDigits.isEmpty ∧ expChars.isEmpty then
        let n : Int := Int.ofNat (digitsToNat intDigits)
        some (.num (if neg then -n else n), s3)
      else
        let raw := (if neg then ['-'] else []) ++ intDigits ++
          (if fracDigits.isEmpty then [] else '.' :: fracDigits) ++ expChars
        some (.numRaw raw, s3)

mutual

/-- JSON value parser (fuelled; the fuel is an upper bound on recursion
depth, amply supplied by `parseJson`). -/
def parseValue : Nat → List Char → Option (JsValue × List Char)
  | 0, _ => none
  | fuel + 1, s =>
    match skipWs s with
    | '{' :: rest =>
        (match skipWs rest with
          | '}' :: r2 => some (.obj [], r2)
          | r1 => parseFields fuel [] r1)
    | '[' :: rest =>
        (match skipWs rest with
          | ']' :: r2 => some (.arr [], r2)
          | r1 => parseElems fuel [] r1)
    | '"' :: rest =>
        (parseStringBody [] rest).map (fun (str0, r) => (.str str0, r))
    | 't' :: 'r' :: 'u' :: 'e' :: rest => some (.bool true, rest)
    | 'f' :: 'a' :: 'l' :: 's' :: 'e' :: rest => some (.bool false, rest)
    | 'n' :: 'u' :: 'l' :: 'l' :: rest => some (.null, rest)
    | s1 => parseNumber s1

/-- Object members, after `{` (first key expected at the head). -/
def parseFields (fuel : Nat) (acc : List (String × JsValue)) (s : List Char) :
    Option (JsValue × List Char) :=
  match fuel with
  | 0 => none
  | fuel + 1 =>
    match s with
    | '"' :: rest =>
      match parseStringBody [] rest with
      | none => none
      | some (key, r1) =>
        match skipWs r1 with
        | ':' :: r2 =>
          match parseValue fuel r2 with
          | none => none
          | some (v, r3) =>
            match skipWs r3 with
            | ',' :: r4 => parseFields fuel (acc ++ [(key, v)]) (skipWs r4)
            | '}' :: r4 => some (.obj (acc ++ [(key, v)]), r4)
            | _ => none
        | _ => none
    | _ => none

/-- Array elements, after `[` (first element expected at the head). -/
def parseElems (fuel : Nat) (acc : List JsValue) (s : List Char) :
    Option (JsValue × List Char) :=
  match fuel with
  | 0 => none
  | fuel + 1 =>
    match parseValue fuel s with
    | none => none
    | some (v, r1) =>
      match skipWs r1 with
      | ',' :: r2 => parseElems fuel (acc ++ [v]) r2
      | ']' :: r2 => some (.arr (acc ++ [v]), r2)
      | _ => none

end

/-- `JSON.parse` on a whole line: the value must be followed by only
whitespace. -/
def parseJson (s : List Char) : Option JsValue :=
  match parseValue (s.length + 1) s with
  | some (v, rest) => if (skipWs rest).isEmpty then some v else none
  | none => none

/-! ## Numeric coercions used by `>` comparisons in the handlers -/

/-- JavaScript numeric coercion on the values that reach a `>` comparison
(`cmd.length > 60` and friends).  `undefined` and non-numeric strings are
NaN (`none`); NaN comparisons are false. -/
def jsNumVal : JsValue → Option Int
  | .null => some 0
  | .jsUndefined => none
  | .bool b => some (if b then 1 else 0)
  | .num n => some n
  | .numRaw s =>
      (match s with
        | '-' :: rest => (some (-(Int.ofNat (digitsToNat (rest.takeWhile Char.isDigit)))))
        | _ => some (Int.ofNat (digitsToNat (s.takeWhile Char.isDigit))))
  | .str s =>
      if s = "" then some 0
      else if s.toList.all Char.isDigit then some (Int.ofNat (digitsToNat s.toList))
      else none
  | .arr _ => none
  | .obj _ => none

/-- JavaScript `v > k` for an integer literal `k`. -/
def jsGTnum (v : JsValue) (k : Int) : Bool :=
  match jsNumVal v with
  | some n => n > k
  | none => false

/-- `v.length` on a value already known not to be `null`/`undefined`
(the handlers only take `.length` of values guarded by `|| ""`). -/
def jsLength (v : JsValue) : JsValue :=
  match v.getProp "length" with
  | .ok w => w
  | .error _ => .jsUndefined

/-- `v.slice(0, cut) + "..."`: defined for strings (and arrays); calling
`slice` on anything else is a TypeError. -/
def jsSliceConcatDots (v : JsValue) (cut : Nat) : Except Unit String :=
  match v with
  | .str s => .ok (String.mk (s.toList.take cut) ++ "...")
  | .arr xs => .ok ((JsValue.arr (xs.take cut)).jsToString ++ "...")
  | _ => .error ()

/-! ## toolTitle (stream.ts 56-96)

The body runs inside the source's `try`; a JavaScript TypeError is
`.error ()` and the wrapper returns the raw tool name. -/

/-- The `switch` body of `toolTitle`. -/
def toolTitleBody (toolName : String) (toolInput : JsValue) : Except Unit String :=
  if toolName = "Read" then do
    let fp ← toolInput.getProp "file_path"
    .ok ("Read " ++ (JsValue.jsOr fp (.str "file")).jsToString)
  else if toolName = "Write" then do
    let fp ← toolInput.getProp "file_path"
    .ok ("Write " ++ (JsValue.jsOr fp (.str "file")).jsToString)
  else if toolName = "Edit" then do
    let fp ← toolInput.getProp "file_path"
    .ok ("Edit " ++ (JsValue.jsOr fp (.str "file")).jsToString)
  else if toolName = "Bash" then do
    let c ← toolInput.getProp "command"
    let cmd := JsValue.jsOr c (.str "")
    if jsGTnum (jsLength cmd) 60 then do
      let t ← jsSliceConcatDots cmd 57
      .ok ("Run: " ++ t)
    else .ok ("Run: " ++ cmd.jsToString)
  else if toolName = "Glob" then do
    let p ← toolInput.getProp "pattern"
    .ok ("Search: " ++ (JsValue.jsOr p (.str "files")).jsToString)
  else if toolName = "Grep" then do
    let p ← toolInput.getProp "pattern"
    .ok ("Search: " ++ (JsValue.jsOr p (.str "code")).jsToString)
  else if toolName = "Task" then do
    let d ← toolInput.getProp "description"
    let sub ← toolInput.getProp "subagent_type"
    .ok ("Sub-agent: " ++ (JsValue.jsOr d (JsValue.jsOr sub (.str "task"))).jsToString)
  else if toolName = "AskUserQuestion" then do
    let qs ← toolInput.getProp "questions"
    let q := (qs.optIndex 0).optChain "question"
    .ok (if q.truthy then "Question: " ++ q.jsToString else "Asking a question...")
  else if toolName = "EnterPlanMode" then .ok "Entering plan mode"
  else if toolName = "ExitPlanMode" then .ok "Plan ready"
  else if toolName = "TaskCreate" ∨ toolName = "TodoWrite" then do
    let subj ← toolInput.getProp "subject"
    let d ← toolInput.getProp "description"
    .ok ("Create task: " ++ (JsValue.jsOr subj (JsValue.jsOr d (.str "task"))).jsToString)
  else if toolName = "TaskUpdate" then do
    let subj ← toolInput.getProp "subject"
    let stat ← toolInput.getProp "status"
    .ok ("Update task: " ++ (JsValue.jsOr subj (JsValue.jsOr stat (.str "task"))).jsToString)
  else .ok toolName

/-- `toolTitle` with its `try { ... } catch { return toolName; }`. -/
def toolTitle (toolName : String) (toolInput : JsValue) : String :=
  match toolTitleBody toolName toolInput with
  | .ok s => s
  | .error _ => toolName

/-- `toolTitle` as invoked from the dispatcher, where the tool name comes
from the event and need not be a string: a non-string name matches no
`switch` case and falls through to the default template. -/
def toolTitleJs (name : JsValue) (input : JsValue) : String :=
  match name with
  | .str s => toolTitle s input
  | v => v.jsToString

/-- The tool names `toolTitle` has a dedicated case for. -/
def knownToolNames : List String :=
  ["Read", "Write", "Edit", "Bash", "Glob", "Grep", "Task", "AskUserQuestion",
   "EnterPlanMode", "ExitPlanMode", "TaskCreate", "TodoWrite", "TaskUpdate"]

/-! ## Newline splitting (stream.ts 322-323, 119) -/

/-- `s.split("\n")` on character lists.  Always nonempty;
`"".split("\n") = [""]`. -/
def splitNL : List Char → List (List Char)
  | [] => [[]]
  | c :: rest =>
      if c = '\n' then [] :: splitNL rest
      else
        match splitNL rest with
        | [] => [[c]]
        | h :: t => (c :: h) :: t

/-! ## extractToolOutput (stream.ts 98-132) -/

/-- `s.startsWith(pre)`, computed structurally over the characters. -/
def strStartsWith (s pre : String) : Bool := pre.toList.isPrefixOf s.toList

/-- `MAX_OUTPUT_LEN` from stream.ts. -/
def MAX_OUTPUT_LEN : Nat := 120

/-- `extractToolOutput(resultSummary, contentBlock)`.  `.error ()` models
the TypeError thrown when a truthy non-string summary reaches
`text.startsWith` (it propagates to the per-line catch). -/
def extractToolOutput (resultSummary contentBlock : JsValue) :
    Except Unit (Option String) :=
  let text1 : JsValue :=
    if (match resultSummary with | .str s => s.length > 0 | _ => false : Bool) then
      resultSummary
    else if (resultSummary.optChain "message").truthy then
      resultSummary.optChain "message"
    else .null
  let text2 : JsValue :=
    if !text1.truthy && (contentBlock.optChain "content").truthy then
      let content := contentBlock.optChain "content"
      let raw : String := match content with
        | .str s => s
        | v => jsonStringify v
      let lineCount := (splitNL raw.toList).length
      if lineCount > 3 then .str (toString lineCount ++ " lines")
      else if raw.length > 0 && raw.length ≤ MAX_OUTPUT_LEN then .str raw
      else text1
    else text1
  if !text2.truthy then .ok none
  else
    match text2 with
    | .str s =>
        let s := if strStartsWith s "Error: " then String.mk (s.toList.drop 7) else s
        .ok (some (if s.length > MAX_OUTPUT_LEN then
          String.mk (s.toList.take (MAX_OUTPUT_LEN - 3)) ++ "..." else s))
    | _ => .error ()

/-! ## Stream-handler state (stream.ts 176-309)

One value per mutable binding of `handleClaudeStream` that the NDJSON
dispatcher reads or writes.  `storedSession` mirrors the thread's row in
the sqlite `sessions` table (`upsertSession(threadTs, …)` writes it). -/

/-- `task_display_mode` of the streamer. -/
inductive DisplayMode where
  | plan
  | timeline
deriving Repr, DecidableEq

/-- An entry of the `activeTools` map (stream.ts 294-299). -/
structure ActiveTool where
  name : JsValue
  inputJson : String
  taskId : String
  toolUseId : JsValue
deriving Repr

/-- An entry of the `subAgentTasks` map (stream.ts 305). -/
structure SubTask where
  description : String
  taskId : String
deriving Repr

/-- An entry of the `completedTools` map (stream.ts 309). -/
structure CompletedTool where
  taskId : String
  name : JsValue
  title : String
deriving Repr

/-- JavaScript `Map.get` (keys compared structurally, as SameValueZero on
the primitive keys the handler uses). -/
def mapGet {α : Type} (m : List (JsValue × α)) (k : JsValue) : Option α :=
  (m.find? (fun p => beqJs p.1 k)).map (·.2)

/-- JavaScript `Map.set`: overwrite in place, else append. -/
def mapSet {α : Type} (m : List (JsValue × α)) (k : JsValue) (v : α) :
    List (JsValue × α) :=
  if m.any (fun p => beqJs p.1 k) then
    m.map (fun p => if beqJs p.1 k then (k, v) else p)
  else m ++ [(k, v)]

/-- JavaScript `Map.delete`. -/
def mapDel {α : Type} (m : List (JsValue × α)) (k : JsValue) :
    List (JsValue × α) :=
  m.filter (fun p => !(beqJs p.1 k))

/-- The dispatcher's mutable state. -/
structure StreamState where
  sessionId : String
  storedSession : Option String
  accumulatedText : String
  deltaCount : Nat
  updateCount : Nat
  lastUpdateTime : Nat
  done : Bool
  resultData : Option JsValue
  activeTools : List (JsValue × ActiveTool)
  taskIdCounter : Nat
  thinkingTaskDone : Bool
  planModeActive : Bool
  subAgentTasks : List (JsValue × SubTask)
  completedTools : List (JsValue × CompletedTool)
  displayMode : Option DisplayMode
  streamerCreated : Bool
  streamerActive : Bool
  streamFailed : Bool
  stopButtonEnsured : Bool
deriving Repr

/-- Initial dispatcher state (stream.ts 178-309): the streamer is created
lazily, `streamFailed` starts at `!cachedTeamId`. -/
def initialStreamState (sessionId : String) (storedSession : Option String)
    (cachedTeamId : Bool) : StreamState where
  sessionId := sessionId
  storedSession := storedSession
  accumulatedText := ""
  deltaCount := 0
  updateCount := 0
  lastUpdateTime := 0
  done := false
  resultData := none
  activeTools := []
  taskIdCounter := 0
  thinkingTaskDone := false
  planModeActive := false
  subAgentTasks := []
  completedTools := []
  displayMode := none
  streamerCreated := false
  streamerActive := false
  streamFailed := !cachedTeamId
  stopButtonEnsured := false

/-- Status of a `task_update` chunk. -/
inductive TaskStatus where
  | inProgress
  | complete
  | errorStat
deriving Repr, DecidableEq

/-- A `task_update` chunk as passed to `streamer.append` (absent optional
fields are `none`/`[]`; a source is `(url, text)`). -/
structure TaskChunk where
  id : String
  title : String
  status : TaskStatus
  details : Option String := none
  output : Option String := none
  sources : List (JsValue × JsValue) := []
deriving Repr

/-- Payload of one `streamer.append` call. -/
inductive AppendPayload where
  | task (c : TaskChunk)
  | plan (title : String)
  | markdown (text : String)
deriving Repr

/-- Observable effects of processing one NDJSON line.  Branches that only
write a log line have no action.  The `result` event is recorded in
`StreamState.resultData`. -/
inductive Action where
  | append (p : AppendPayload)
  | setStatus (s : String)
  | dbUpsertSession (sid : String)
  | unknownType (t : String)
  | fallbackUpdate (text : String)
deriving Repr

/-- `TOOL_STATUS_MAP` (stream.ts 38-54). -/
def toolStatusLookup (name : String) : Option String :=
  (([("Read", "is reading files..."),
     ("Write", "is writing code..."),
     ("Edit", "is editing code..."),
     ("Bash", "is running commands..."),
     ("Glob", "is searching files..."),
     ("Grep", "is searching code..."),
     ("WebFetch", "is fetching web content..."),
     ("WebSearch", "is searching the web..."),
     ("Task", "is running a sub-agent..."),
     ("EnterPlanMode", "is planning..."),
     ("ExitPlanMode", "is finalizing the plan..."),
     ("TaskCreate", "is creating tasks..."),
     ("TaskUpdate", "is updating tasks..."),
     ("TodoWrite", "is updating tasks..."),
     ("NotebookEdit", "is editing a notebook...")] :
    List (String × String)).find? (fun p => p.1 = name)).map (·.2)

/-- `HIDDEN_TOOLS` (stream.ts 36); membership in the `Set` is `===`, so a
non-string name is never hidden. -/
def isHiddenTool (name : JsValue) : Bool :=
  name.isStr "EnterPlanMode" || name.isStr "ExitPlanMode"

/-- `initStreamer(mode)` (stream.ts 187-203); `client.chatStream` is
modelled as succeeding (its failure is a channel failure, handled by the
sink model). -/
def initStreamer (st : StreamState) (mode : DisplayMode) : StreamState :=
  if st.streamerCreated then st
  else { st with streamerCreated := true, displayMode := some mode }

/-- `safeAppend(payload)` (stream.ts 209-224): drop when downgraded,
lazily create a timeline streamer, mark it active, append. -/
def safeAppendOne (st : StreamState) (p : AppendPayload) :
    StreamState × List Action :=
  if st.streamFailed then (st, [])
  else
    let st := if !st.streamerCreated then initStreamer st .timeline else st
    ({ st with streamerActive := true }, [.append p])

/-! ## Event dispatch (stream.ts 333-755) -/

/-- Hostname extraction of `new URL(u).hostname` for the http(s) URLs of
`WebFetch` inputs; `none` models the constructor throwing. -/
def urlHostname (u : String) : Option String :=
  let rest :=
    if strStartsWith u "https://" then some (u.toList.drop 8)
    else if strStartsWith u "http://" then some (u.toList.drop 7)
    else none
  match rest with
  | none => none
  | some cs =>
      let host := cs.takeWhile (fun c => c != '/' && c != ':' && c != '?' && c != '#')
      if host.isEmpty then none else some (String.mk host)

/-- Sources attached on `content_block_stop` for a WebFetch tool
(stream.ts 577-585): `(url, text)` pairs. -/
def webFetchSources (name : JsValue) (parsedInput : JsValue) :
    Except Unit (List (JsValue × JsValue)) :=
  if name.isStr "WebFetch" then do
    let u ← parsedInput.getProp "url"
    if u.truthy then
      match urlHostname u.jsToString with
      | some h => .ok [(u, .str h)]
      | none => .ok [(u, u)]
    else .ok []
  else .ok []

/-- JavaScript `for (const x of v)`: arrays iterate elements, strings
iterate one-character strings, everything else is a TypeError. -/
def jsIterate (v : JsValue) : Except Unit (List JsValue) :=
  match v with
  | .arr xs => .ok xs
  | .str s => .ok (s.toList.map (fun c => .str (String.mk [c])))
  | _ => .error ()

/-- The quoted question/option lines built for `AskUserQuestion`
(stream.ts 536-544); a TypeError inside the loop propagates. -/
def askUserParts (parsedInput : JsValue) : Except Unit (List String) := do
  let qs0 ← parsedInput.getProp "questions"
  let qs ← jsIterate (JsValue.jsOr qs0 (.arr []))
  qs.foldlM (fun (parts : List String) q => do
    let qq ← q.getProp "question"
    let parts := if qq.truthy then parts ++ ["> *" ++ qq.jsToString ++ "*"] else parts
    let opts0 ← q.getProp "options"
    let opts ← jsIterate (JsValue.jsOr opts0 (.arr []))
    opts.foldlM (fun (parts : List String) opt => do
      let d ← opt.getProp "description"
      let lbl ← opt.getProp "label"
      let desc := if d.truthy then " — " ++ d.jsToString else ""
      pure (parts ++ [">  • " ++ lbl.jsToString ++ desc])) parts) []

/-- `status reset to thinking/planning` after a finished tool
(stream.ts 602). -/
def statusResetAction (st : StreamState) : Action :=
  .setStatus (if st.planModeActive then "is planning..." else "is thinking...")

/-- Plan-mode pre-detection on an `EnterPlanMode` block when no streamer
exists yet (stream.ts 389-395). -/
def planDetectStep (st : StreamState) : StreamState × List Action :=
  safeAppendOne (initStreamer st .plan) (.plan "Planning...")

/-- Completing the "Thinking..." indicator card (stream.ts 408-415 and
462-471): set the flag, and in timeline mode append the completed card. -/
def thinkingDoneStep (st : StreamState) : StreamState × List Action :=
  let st := { st with thinkingTaskDone := true }
  if st.displayMode = some .timeline then
    safeAppendOne st (.task { id := "thinking", title := "Thinking", status := .complete })
  else (st, [])

/-- Tracking a starting `tool_use` block (stream.ts 418-440): allocate a
task id, record the open tool, update the status bar, and emit the
in-progress card unless the tool is hidden. -/
def toolStartStep (st : StreamState) (evt cb : JsValue) : StreamState × List Action :=
  let toolName := cb.optChain "name"
  let toolUseId := JsValue.jsOr (cb.optChain "id") (.str "")
  let counter := st.taskIdCounter + 1
  let taskId := "task_" ++ toString counter
  let st := { st with
    taskIdCounter := counter,
    activeTools := mapSet st.activeTools (evt.optChain "index")
      { name := toolName, inputJson := "", taskId := taskId, toolUseId := toolUseId } }
  let statusMsg := (toolStatusLookup toolName.jsToString).getD
    ("is using " ++ toolName.jsToString ++ "...")
  if !(isHiddenTool toolName) then
    let r := safeAppendOne st
      (.task { id := taskId, title := "Using " ++ toolName.jsToString ++ "...",
               status := .inProgress })
    (r.1, Action.setStatus statusMsg :: r.2)
  else (st, [Action.setStatus statusMsg])

/-- `content_block_start` handling (stream.ts 384-450). -/
def processCBStart (st : StreamState) (evt : JsValue) : StreamState × List Action :=
  let cb := evt.optChain "content_block"
  let blockType := cb.optChain "type"
  -- plan-mode detection (389-395)
  let r0 :=
    if blockType.isStr "tool_use" && (cb.optChain "name").isStr "EnterPlanMode"
        && !st.streamerCreated then
      planDetectStep st
    else (st, [])
  -- ensure streamer (400-402)
  let st :=
    if !r0.1.streamerCreated && !r0.1.streamFailed && !(blockType.isStr "thinking") then
      initStreamer r0.1 .timeline
    else r0.1
  -- complete the "Thinking..." task (408-415)
  let r1 :=
    if !st.thinkingTaskDone && !st.streamFailed && !(blockType.isStr "thinking") then
      thinkingDoneStep st
    else (st, [])
  -- track tool_use blocks (418-440)
  let r2 :=
    if blockType.isStr "tool_use" then toolStartStep r1.1 evt cb
    else (r1.1, [])
  -- thinking block indicator (443-450)
  let a3 :=
    if blockType.isStr "thinking" then
      [Action.setStatus (if r2.1.displayMode = some .plan then "is planning..."
        else "is thinking...")]
    else []
  (r2.1, r0.2 ++ r1.2 ++ r2.2 ++ a3)

/-- Recording an arriving text delta (stream.ts 454-456). -/
def textDeltaAccum (st : StreamState) (deltaText : String) : StreamState :=
  { st with
    deltaCount := st.deltaCount + 1,
    accumulatedText := st.accumulatedText ++ deltaText }

/-- The streaming path of a text delta (stream.ts 474-488): append the
delta through the ordered chain and ensure the stop button. -/
def streamTextStep (st : StreamState) (deltaText : String) : StreamState × List Action :=
  ({ st with streamerActive := true, stopButtonEnsured := true },
   [Action.append (.markdown deltaText)])

/-- The fallback path of a text delta (stream.ts 491-507): a throttled
`chat.update` with the full accumulated text. -/
def fallbackTextStep (st : StreamState) (now : Nat) : StreamState × List Action :=
  if !st.done && now - st.lastUpdateTime ≥ 750 then
    ({ st with lastUpdateTime := now, updateCount := st.updateCount + 1,
               stopButtonEnsured := true },
     [Action.fallbackUpdate st.accumulatedText])
  else (st, [])

/-- Accumulating a tool-input fragment (stream.ts 508-513). -/
def inputJsonDeltaStep (st : StreamState) (evt d : JsValue) : StreamState × List Action :=
  match mapGet st.activeTools (evt.optChain "index") with
  | some tool =>
      let frag := (JsValue.jsOr (d.optChain "partial_json") (.str "")).jsToString
      let tools := mapSet st.activeTools (evt.optChain "index")
        ({ tool with inputJson := tool.inputJson ++ frag })
      ({ st with activeTools := tools }, [])
  | none => (st, [])

/-- `content_block_delta` handling (stream.ts 452-516); `now` is the
`Date.now()` the fallback throttle reads. -/
def processCBDelta (st : StreamState) (now : Nat) (evt : JsValue) :
    StreamState × List Action :=
  let d := evt.optChain "delta"
  if (d.optChain "type").isStr "text_delta" then
    let deltaText := (d.optChain "text").jsToString
    let st := textDeltaAccum st deltaText
    let st :=
      if !st.streamerCreated && !st.streamFailed then initStreamer st .timeline else st
    let r1 :=
      if !st.thinkingTaskDone && !st.streamFailed then thinkingDoneStep st
      else (st, [])
    -- streaming path (474-488)
    let r2 :=
      if !r1.1.streamFailed then streamTextStep r1.1 deltaText
      else (r1.1, [])
    -- fallback path (491-507)
    let r3 :=
      if r2.1.streamFailed then fallbackTextStep r2.1 now
      else (r2.1, [])
    (r3.1, r1.2 ++ r2.2 ++ r3.2)
  else if (d.optChain "type").isStr "input_json_delta" then
    inputJsonDeltaStep st evt d
  else (st, [])

/-- The `AskUserQuestion` completion branch (stream.ts 535-556). -/
def cbStopAskUser (st : StreamState) (tool : ActiveTool) (title : String)
    (parsedInput : JsValue) : StreamState × List Action :=
  match askUserParts parsedInput with
  | .error _ => (st, [])
  | .ok parts =>
    let r1 :=
      if parts.length > 0 then
        safeAppendOne st (.markdown ("\n" ++ String.intercalate "\n" parts ++ "\n\n"))
      else (st, [])
    let r2 := safeAppendOne r1.1
      (.task { id := tool.taskId, title := title, status := .complete })
    (r2.1, r1.2 ++ r2.2 ++ [statusResetAction r2.1])

/-- The `Task` (sub-agent) registration branch (stream.ts 558-564). -/
def cbStopTaskReg (st : StreamState) (tool : ActiveTool) (parsedInput : JsValue) :
    StreamState × List Action :=
  match (do
    let d ← parsedInput.getProp "description"
    let sub ← parsedInput.getProp "subagent_type"
    Except.ok (JsValue.jsOr d (JsValue.jsOr sub (.str "Sub-agent")))) with
  | .error _ => (st, [])
  | .ok desc =>
    let subs := mapSet st.subAgentTasks tool.toolUseId
      ({ description := "Sub-agent: " ++ desc.jsToString, taskId := tool.taskId })
    let st := { st with subAgentTasks := subs }
    (st, [statusResetAction st])

/-- The hidden-tool branch (stream.ts 565-573). -/
def cbStopHidden (st : StreamState) (tool : ActiveTool) : StreamState × List Action :=
  if tool.name.isStr "ExitPlanMode" && st.displayMode = some .plan then
    let r := safeAppendOne st (.plan "Plan ready")
    (r.1, r.2 ++ [statusResetAction r.1])
  else (st, [statusResetAction st])

/-- The normal-tool completion branch (stream.ts 574-598): emit the
completed card (with WebFetch sources) and register the invocation in the
completed-tool table. -/
def cbStopNormal (st : StreamState) (tool : ActiveTool) (title : String)
    (parsedInput : JsValue) : StreamState × List Action :=
  match webFetchSources tool.name parsedInput with
  | .error _ => (st, [])
  | .ok sources =>
    let r := safeAppendOne st
      (.task { id := tool.taskId, title := title, status := .complete,
               sources := sources })
    let compl := mapSet r.1.completedTools tool.toolUseId
      ({ taskId := tool.taskId, name := tool.name, title := title })
    let st2 := { r.1 with completedTools := compl }
    (st2, r.2 ++ [statusResetAction st2])

/-- `content_block_stop` handling (stream.ts 518-603).  A TypeError raised
after `activeTools.delete` leaves the deletion in place and emits nothing
(the per-line catch swallows it). -/
def processCBStop (st : StreamState) (evt : JsValue) : StreamState × List Action :=
  match mapGet st.activeTools (evt.optChain "index") with
  | none => (st, [])
  | some tool =>
    let st := { st with activeTools := mapDel st.activeTools (evt.optChain "index") }
    let parsedInput := (parseJson tool.inputJson.toList).getD (.obj [])
    let title := toolTitleJs tool.name parsedInput
    if tool.name.isStr "AskUserQuestion" then cbStopAskUser st tool title parsedInput
    else if tool.name.isStr "Task" then cbStopTaskReg st tool parsedInput
    else if isHiddenTool tool.name then cbStopHidden st tool
    else cbStopNormal st tool title parsedInput

/-- `(content || []).filter((c) => c.type === "tool_use")`
(stream.ts 622): a non-array truthy content has no `filter` method, and a
`null` element throws inside the callback. -/
def toolCallsOf (content : JsValue) : Except Unit (List JsValue) :=
  match JsValue.jsOr content (.arr []) with
  | .arr xs =>
      xs.foldlM (fun (acc : List JsValue) c => do
        let t ← c.getProp "type"
        pure (if t.isStr "tool_use" then acc ++ [c] else acc)) []
  | _ => .error ()

/-- The `try`-refined detail of a sub-agent's last tool call
(stream.ts 630-641); `.ok none` means no branch assigned a detail. -/
def refineDetail (lastTool : JsValue) : Except Unit (Option String) :=
  let name := lastTool.optChain "name"
  let inp := lastTool.optChain "input"
  if name.isStr "Read" && (inp.optChain "file_path").truthy then
    match inp.optChain "file_path" with
    | .str s => .ok (some ("Reading " ++ ((s.splitOn "/").getLastD "")))
    | _ => .error ()
  else if name.isStr "Grep" && (inp.optChain "pattern").truthy then
    .ok (some ("Searching: " ++ (inp.optChain "pattern").jsToString))
  else if name.isStr "Glob" && (inp.optChain "pattern").truthy then
    .ok (some ("Finding: " ++ (inp.optChain "pattern").jsToString))
  else if name.isStr "Bash" && (inp.optChain "command").truthy then
    let cmd := inp.optChain "command"
    if jsGTnum (jsLength cmd) 40 then
      (jsSliceConcatDots cmd 37).map (fun t => some ("Running: " ++ t))
    else .ok (some ("Running: " ++ cmd.jsToString))
  else .ok none

/-- `type === "assistant"` handling (stream.ts 614-658); only the
sub-agent branch with tool calls has an observable effect. -/
def processAssistant (st : StreamState) (data : JsValue) : StreamState × List Action :=
  let parentId := data.optChain "parent_tool_use_id"
  let content := (data.optChain "message").optChain "content"
  if parentId.truthy && (mapGet st.subAgentTasks parentId).isSome then
    match mapGet st.subAgentTasks parentId with
    | none => (st, [])
    | some parentTask =>
      match toolCallsOf content with
      | .error _ => (st, [])
      | .ok toolCalls =>
        if toolCalls.length > 0 then
          let lastTool := toolCalls.getLastD .null
          let nameS := (lastTool.optChain "name").jsToString
          let base := (toolStatusLookup nameS).getD ("Using " ++ nameS ++ "...")
          let detail := match refineDetail lastTool with
            | .ok (some d2) => d2
            | _ => base
          safeAppendOne st (.task
            { id := parentTask.taskId, title := parentTask.description,
              status := .inProgress, details := some detail })
        else (st, [])
  else (st, [])

/-- One attempted markdown link after a consumed `[`: text, url, rest. -/
def mdLinkAt (rest : List Char) : Option (String × String × List Char) :=
  let t := rest.takeWhile (fun c => c != ']')
  match t, rest.drop t.length with
  | _ :: _, ']' :: '(' :: urlRest =>
      let schemeLen :=
        if "https://".toList.isPrefixOf urlRest then some 8
        else if "http://".toList.isPrefixOf urlRest then some 7
        else none
      match schemeLen with
      | some n =>
          let tl := urlRest.drop n
          let ubody := tl.takeWhile (fun c =>
            !(c = ')' || c = ' ' || c = '\t' || c = '\n' || c = '\r' || c = '\x0c' || c = '\x0b'))
          (match ubody, tl.drop ubody.length with
            | _ :: _, ')' :: rem =>
                some (String.mk t, String.mk (urlRest.take n ++ ubody), rem)
            | _, _ => none)
      | none => none
  | _, _ => none

/-- Left-to-right scan for `[text](https?://url)` markdown links, up to
`limit` matches (the `urlRegex.exec` loop of stream.ts 710-715). -/
def extractMdLinksAux : Nat → Nat → List Char → List (String × String)
  | 0, _, _ => []
  | _, 0, _ => []
  | _ + 1, _ + 1, [] => []
  | fuel + 1, limit + 1, c :: rest =>
      if c = '[' then
        match mdLinkAt rest with
        | some (t, u, rem) => (t, u) :: extractMdLinksAux fuel limit rem
        | none => extractMdLinksAux fuel (limit + 1) rest
      else extractMdLinksAux fuel (limit + 1) rest

/-- Markdown links of a WebSearch result string, capped at 4. -/
def extractMdLinks (limit : Nat) (s : List Char) : List (String × String) :=
  extractMdLinksAux (s.length + 1) limit s

/-- Sources extracted from a WebSearch tool result (stream.ts 708-716):
`(url, text)` pairs; non-string content contributes nothing. -/
def webSearchSources (name : JsValue) (firstBlock : JsValue) :
    List (JsValue × JsValue) :=
  if name.isStr "WebSearch" && (firstBlock.optChain "content").truthy then
    let raw := match firstBlock.optChain "content" with
      | .str s => s
      | _ => ""
    (extractMdLinks 4 raw.toList).map (fun p => (JsValue.str p.2, JsValue.str p.1))
  else []

/-- `type === "user"` handling (stream.ts 661-742). -/
def processUser (st : StreamState) (data : JsValue) : StreamState × List Action :=
  let parentId := data.optChain "parent_tool_use_id"
  let resultSummary := data.optChain "tool_use_result"
  let content := (data.optChain "message").optChain "content"
  if parentId.truthy && (mapGet st.subAgentTasks parentId).isSome then
    (st, [])
  else if parentId == JsValue.null || parentId == JsValue.jsUndefined then
    let firstBlock := content.optIndex 0
    let toolUseId := firstBlock.optChain "tool_use_id"
    if toolUseId.truthy && (mapGet st.subAgentTasks toolUseId).isSome then
      match mapGet st.subAgentTasks toolUseId with
      | none => (st, [])
      | some subTask =>
        match extractToolOutput resultSummary firstBlock with
        | .error _ => (st, [])
        | .ok subOutput =>
          let outField := match subOutput with
            | some o => if o ≠ "" then some o else none
            | none => none
          let r := safeAppendOne st (.task
            { id := subTask.taskId, title := subTask.description,
              status := .complete, details := none, output := outField })
          ({ r.1 with subAgentTasks := mapDel r.1.subAgentTasks toolUseId }, r.2)
    else if toolUseId.truthy && (mapGet st.completedTools toolUseId).isSome then
      match mapGet st.completedTools toolUseId with
      | none => (st, [])
      | some completed =>
        let st := { st with completedTools := mapDel st.completedTools toolUseId }
        let isError := (firstBlock.optChain "is_error") == JsValue.bool true
        match extractToolOutput resultSummary firstBlock with
        | .error _ => (st, [])
        | .ok output =>
          let sources := webSearchSources completed.name firstBlock
          let outTruthy := match output with
            | some o => o ≠ ""
            | none => false
          if isError || outTruthy || sources.length > 0 then
            safeAppendOne st (.task
              { id := completed.taskId, title := completed.title,
                status := if isError then .errorStat else .complete,
                output := if outTruthy then output else none,
                sources := sources })
          else (st, [])
    else (st, [])
  else (st, [])

/-- `type === "stream_event"` handling (stream.ts 356-611). -/
def processStreamEvent (st : StreamState) (now : Nat) (data : JsValue) :
    StreamState × List Action :=
  let evt := data.optChain "event"
  let parentId := data.optChain "parent_tool_use_id"
  if parentId.truthy && (mapGet st.subAgentTasks parentId).isSome then
    match mapGet st.subAgentTasks parentId with
    | none => (st, [])
    | some parentTask =>
      if (evt.optChain "type").isStr "content_block_start" &&
          ((evt.optChain "content_block").optChain "type").isStr "tool_use" then
        let subTool := (evt.optChain "content_block").optChain "name"
        let detail := (toolStatusLookup subTool.jsToString).getD
          ("Using " ++ subTool.jsToString ++ "...")
        safeAppendOne st (.task
          { id := parentTask.taskId, title := parentTask.description,
            status := .inProgress, details := some detail })
      else (st, [])
  else
    let ety := evt.optChain "type"
    if ety.isStr "content_block_start" then processCBStart st evt
    else if ety.isStr "content_block_delta" then processCBDelta st now evt
    else if ety.isStr "content_block_stop" then processCBStop st evt
    else (st, [])

/-- Dispatch on `data.type` (stream.ts 334-755): the body of the per-line
`try`.  An immediate TypeError (`data` parsed to `null`) reaches the catch
with the state untouched. -/
def processData (st : StreamState) (now : Nat) (data : JsValue) :
    StreamState × List Action :=
  match data.getProp "type" with
  | .error _ => (st, [])
  | .ok ty =>
    if ty.isStr "system" then
      let sub := data.optChain "subtype"
      if sub.isStr "init" && (data.optChain "session_id").truthy then
        let sid := (data.optChain "session_id").jsToString
        ({ st with sessionId := sid, storedSession := some sid },
         [.dbUpsertSession sid])
      else if sub.isStr "status" then
        let pm := data.optChain "permissionMode"
        if pm.isStr "plan" then ({ st with planModeActive := true }, [])
        else if st.planModeActive && !(pm.isStr "plan") then
          ({ st with planModeActive := false }, [])
        else (st, [])
      else (st, [])
    else if ty.isStr "stream_event" then processStreamEvent st now data
    else if ty.isStr "assistant" then processAssistant st data
    else if ty.isStr "user" then processUser st data
    else if ty.isStr "result" then ({ st with resultData := some data }, [])
    else (st, [.unknownType ty.jsToString])

/-- One NDJSON line (stream.ts 333-758): parse, dispatch; a parse failure
is logged and skipped with no state change. -/
def processLine (st : StreamState) (now : Nat) (line : List Char) :
    StreamState × List Action :=
  match parseJson line with
  | none => (st, [])
  | some data => processData st now data

/-- JavaScript whitespace for `line.trim()` (the characters that can occur
inside a newline-split line). -/
def jsWsChar (c : Char) : Bool :=
  c = ' ' || c = '\t' || c = '\r' || c = '\x0b' || c = '\x0c' || c = '\n'

/-- The `for (const line of lines)` loop (stream.ts 325-759):
whitespace-only lines are skipped before parsing; actions accumulate in
processing order. -/
def runLines (st : StreamState) (now : Nat) :
    List (List Char) → StreamState × List Action
  | [] => (st, [])
  | line :: rest =>
      if line.all jsWsChar then runLines st now rest
      else
        let (st1, a1) := processLine st now line
        let (st2, a2) := runLines st1 now rest
        (st2, a1 ++ a2)

/-- One `stdout` `data` event (stream.ts 319-760): append the chunk to
`jsonBuffer`, split on newlines, process the complete lines, keep the
trailing fragment. -/
def feedData (st : StreamState) (buf : List Char) (now : Nat)
    (chunk : List Char) : StreamState × List Action × List Char :=
  let parts := splitNL (buf ++ chunk)
  let (st2, acts) := runLines st now parts.dropLast
  (st2, acts, parts.getLastD [])

/-- A whole sequence of `data` events. -/
def runChunks (st : StreamState) (buf : List Char) (now : Nat) :
    List (List Char) → StreamState × List Action × List Char
  | [] => (st, [], buf)
  | c :: cs =>
      let (st1, a1, b1) := feedData st buf now c
      let (st2, a2, b2) := runChunks st1 b1 now cs
      (st2, a1 ++ a2, b2)

/-! ## Byte-level `data` events (`chunk.toString()`, stream.ts 320)

Node delivers `stdout` chunks as `Buffer`s of bytes; the handler's first
step is `chunk.toString()`, a per-chunk UTF-8 decode with no decoder
state carried from one chunk to the next. -/

/-- U+FFFD, the replacement character `Buffer.prototype.toString("utf8")`
emits for bytes that do not form a valid UTF-8 sequence. -/
def replChar : Char := Char.ofNat 0xfffd

/-- WHATWG UTF-8 decode with replacement — the semantics of a single
`Buffer.prototype.toString("utf8")` call: each maximal invalid subpart
becomes one U+FFFD, as does a well-formed sequence truncated by the end
of the buffer; after an invalid byte, decoding resumes at that byte.
The fuel argument starts at the number of bytes and every step consumes
at least one byte, so it never runs out. -/
def utf8DecodeAux : Nat → List Nat → List Char
  | _, [] => []
  | 0, _ => []
  | fuel + 1, b :: rest =>
    if b < 0x80 then Char.ofNat b :: utf8DecodeAux fuel rest
    else if b < 0xc2 then replChar :: utf8DecodeAux fuel rest
    else if b < 0xe0 then
      match rest with
      | [] => [replChar]
      | b1 :: rest1 =>
        if 0x80 ≤ b1 && b1 < 0xc0 then
          Char.ofNat ((b - 0xc0) * 0x40 + (b1 - 0x80)) :: utf8DecodeAux fuel rest1
        else replChar :: utf8DecodeAux fuel rest
    else if b < 0xf0 then
      match rest with
      | [] => [replChar]
      | b1 :: rest1 =>
        if (if b = 0xe0 then 0xa0 else 0x80) ≤ b1 &&
            b1 < (if b = 0xed then 0xa0 else 0xc0) then
          match rest1 with
          | [] => [replChar]
          | b2 :: rest2 =>
            if 0x80 ≤ b2 && b2 < 0xc0 then
              Char.ofNat ((b - 0xe0) * 0x1000 + (b1 - 0x80) * 0x40 + (b2 - 0x80)) ::
                utf8DecodeAux fuel rest2
            else replChar :: utf8DecodeAux fuel rest1
        else replChar :: utf8DecodeAux fuel rest
    else if b < 0xf5 then
      match rest with
      | [] => [replChar]
      | b1 :: rest1 =>
        if (if b = 0xf0 then 0x90 else 0x80) ≤ b1 &&
            b1 < (if b = 0xf4 then 0x90 else 0xc0) then
          match rest1 with
          | [] => [replChar]
          | b2 :: rest2 =>
            if 0x80 ≤ b2 && b2 < 0xc0 then
              match rest2 with
              | [] => [replChar]
              | b3 :: rest3 =>
                if 0x80 ≤ b3 && b3 < 0xc0 then
                  Char.ofNat ((b - 0xf0) * 0x40000 + (b1 - 0x80) * 0x1000 +
                      (b2 - 0x80) * 0x40 + (b3 - 0x80)) :: utf8DecodeAux fuel rest3
                else replChar :: utf8DecodeAux fuel rest2
            else replChar :: utf8DecodeAux fuel rest1
        else replChar :: utf8DecodeAux fuel rest
    else replChar :: utf8DecodeAux fuel rest

/-- `buf.toString("utf8")` on a whole byte buffer. -/
def utf8Decode (bs : List Nat) : List Char := utf8DecodeAux bs.length bs

/-- A sequence of `stdout` `data` events at the byte level (stream.ts
319-320): each `Buffer` chunk is decoded independently by
`chunk.toString()` and only then appended to `jsonBuffer`. -/
def runChunksBytes (st : StreamState) (buf : List Char) (now : Nat)
    (bss : List (List Nat)) : StreamState × List Action × List Char :=
  runChunks st buf now (bss.map utf8Decode)

/-- The bytes of `{"type":"é"}` + newline, up to and including the lead
byte 0xC3 of the two-byte character `é`. -/
def c2SplitA : List Nat :=
  [0x7b, 0x22, 0x74, 0x79, 0x70, 0x65, 0x22, 0x3a, 0x22, 0xc3]

/-- The remaining bytes: the continuation byte 0xA9 of `é`, then `"}` and
the newline. -/
def c2SplitB : List Nat := [0xa9, 0x22, 0x7d, 0x0a]

/-! ## Single-flight admission (assistant.js 243-249, stream.ts 276-278,
766-778, app.ts stop_claude handler)

The `activeProcesses` map is modelled by its key set (a `Map` holds at
most one entry per key, so a duplicate-free key list is its image).  One
step is one of: a user turn reaching the admission guard, the subprocess
`close` event, the subprocess `error` event, a stop-button press. -/

/-- External events touching `activeProcesses` for some thread key. -/
inductive TurnEvent where
  | userTurn (key : String)
  | procClose (key : String)
  | procError (key : String)
  | stopRequest (key : String)
deriving Repr, DecidableEq

/-- Observable actions of the admission/exit handlers. -/
inductive TurnAction where
  | stillProcessingNotice (key : String)
  | spawned (key : String)
  | inserted (key : String)
  | removed (key : String)
  | sigtermSent (key : String)
deriving Repr, DecidableEq

/-- One step of the admission machine.
`userTurn`: the guard `if (activeProcesses.has(threadTs))` replies
"Still processing the previous message..." and returns; otherwise
`handleClaudeStream` spawns and immediately runs
`activeProcesses.set(threadTs, proc)` (synchronously, before any stdout
callback can run).  `procClose`/`procError`: the handlers delete the
entry.  `stopRequest`: `proc.kill("SIGTERM")` only — no deletion. -/
def stepTurn (procs : List String) : TurnEvent → List String × List TurnAction
  | .userTurn k =>
      if procs.contains k then (procs, [.stillProcessingNotice k])
      else (k :: procs, [.spawned k, .inserted k])
  | .procClose k => (procs.erase k, [.removed k])
  | .procError k => (procs.erase k, [.removed k])
  | .stopRequest k =>
      if procs.contains k then (procs, [.sigtermSent k]) else (procs, [])

/-- Run the admission machine over an event trace. -/
def runTurns (procs : List String) : List TurnEvent → List String × List TurnAction
  | [] => (procs, [])
  | e :: es =>
      let (p1, a1) := stepTurn procs e
      let (p2, a2) := runTurns p1 es
      (p2, a1 ++ a2)

/-! ## Output sink: incremental channel with permanent fallback downgrade
(stream.ts 181-224, 452-507)

The sink processes append operations whose channel outcome (resolve or
reject) is an input.  The fallback check inside the `text_delta` branch
reads `streamFailed` as it stood when the delta arrived (the rejection of
the in-flight append lands asynchronously), hence `wasFailed` below. -/

/-- Sink state: the mutable bindings of `handleClaudeStream` the two
output paths read. -/
structure SinkState where
  streamFailed : Bool
  streamerActive : Bool
  accumulated : String
  lastUpdateTime : Nat
  updateCount : Nat
  done : Bool
deriving Repr, DecidableEq

/-- One sink input: a chunk append via `safeAppend`, or a text delta
(which tries the incremental path and falls back).  `ok` is the channel's
verdict on the attempted `streamer.append`. -/
inductive SinkEvent where
  | chunkAppend (ok : Bool)
  | textDelta (text : String) (ok : Bool) (now : Nat)
deriving Repr, DecidableEq

/-- Sink output: an apply to the incremental channel, or a throttled
full-snapshot `chat.update`. -/
inductive SinkAction where
  | incAppend
  | fallbackUpdate (text : String)
deriving Repr, DecidableEq

/-- One sink step.  `safeAppend` returns immediately when downgraded;
otherwise the append is attempted and its first rejection sets
`streamFailed` (stream.ts 218-223, 482-487).  A text delta additionally
runs the throttled `chat.update` fallback when the session was already
downgraded when the delta arrived (stream.ts 491-507). -/
def sinkStep (st : SinkState) : SinkEvent → SinkState × List SinkAction
  | .chunkAppend ok =>
      if st.streamFailed then (st, [])
      else if ok then ({ st with streamerActive := true }, [.incAppend])
      else ({ st with streamerActive := true, streamFailed := true }, [])
  | .textDelta t ok now =>
      let st := { st with accumulated := st.accumulated ++ t }
      let wasFailed := st.streamFailed
      let (st, a1) :=
        if !wasFailed then
          if ok then ({ st with streamerActive := true }, [SinkAction.incAppend])
          else ({ st with streamerActive := true, streamFailed := true }, [])
        else (st, [])
      let (st, a2) :=
        if wasFailed then
          if !st.done && now - st.lastUpdateTime ≥ 750 then
            ({ st with lastUpdateTime := now, updateCount := st.updateCount + 1 },
             [SinkAction.fallbackUpdate st.accumulated])
          else (st, [])
        else (st, [])
      (st, a1 ++ a2)

/-- Run the sink over a sequence of inputs. -/
def runSink (st : SinkState) : List SinkEvent → SinkState × List SinkAction
  | [] => (st, [])
  | e :: es =>
      let (s1, a1) := sinkStep st e
      let (s2, a2) := runSink s1 es
      (s2, a1 ++ a2)

/-! ## Close handler and cancellation rendering (stream.ts 772-899,
app.ts stop_claude) -/

/-- `stopped = signal === "SIGTERM"` (stream.ts 775). -/
def closeStopped (signal : Option String) : Bool := signal = some "SIGTERM"

/-- Final text of the fallback (`chat.update`) finalization path
(stream.ts 866-874); `code` is `null` when the process died by signal. -/
def finalFallbackText (stopped : Bool) (accumulatedText : String)
    (code : Option Int) : String :=
  if stopped then
    if accumulatedText ≠ "" then accumulatedText ++ "\n\n_Stopped by user._"
    else "_Stopped by user._"
  else if accumulatedText ≠ "" then accumulatedText
  else if code ≠ some 0 then "Something went wrong."
  else "No response."

/-- Total text visible on the incremental path after finalization: the
already-streamed accumulated text, plus the appended stop marker when the
turn was cancelled (stream.ts 827-829). -/
def finalStreamedText (stopped : Bool) (accumulatedText : String) : String :=
  if stopped then accumulatedText ++ "\n\n_Stopped by user._" else accumulatedText

/-! ## Session-token resolution (assistant.js 252-266, stream.ts 242-246)

`stored` is the thread's `sessions.session_id` (a `TEXT NOT NULL` column;
`none` when no row exists).  `freshId` stands for `randomUUID()`. -/

/-- Result of the session lookup: the session id passed to the spawn, the
`isResume` flag, and the stored row's token after the lookup. -/
def resolveSession (stored : Option String) (freshId : String) :
    String × Bool × Option String :=
  match stored with
  | some t =>
      if t ≠ "" ∧ t ≠ "pending" then (t, true, some t)
      else (freshId, false, some t)
  | none => (freshId, false, some "pending")

/-- The session-selection arguments of the spawned command
(stream.ts 242-246). -/
def claudeSessionArgs (isResume : Bool) (sessionId : String) : List String :=
  if isResume then ["--resume", sessionId] else ["--session-id", sessionId]

/-! ## $cwd handlers and the session row (db.ts, assistant.js 78-96,
app.ts cwd_pick / cwd_modal / app_mention-$cwd)

`SessionRow` models one row of the `sessions` table; `upsertSession`
inserts or overwrites `session_id` (preserving `cwd`), `setCwd` updates
`cwd` of an existing row (SQL `UPDATE`, a no-op without a row). -/

/-- One row of the `sessions` table (the columns these handlers touch). -/
structure SessionRow where
  sessionId : String
  cwd : Option String
deriving Repr, DecidableEq

/-- `upsertSession(key, sid)`: `INSERT … ON CONFLICT DO UPDATE SET
session_id = excluded.session_id` — the `cwd` column is untouched. -/
def upsertSession (row : Option SessionRow) (sid : String) : Option SessionRow :=
  match row with
  | some r => some { r with sessionId := sid }
  | none => some { sessionId := sid, cwd := none }

/-- `setCwd(key, cwd)`: SQL `UPDATE`; no row, no effect. -/
def setCwd (row : Option SessionRow) (cwd : String) : Option SessionRow :=
  row.map (fun r => { r with cwd := some cwd })

/-- The `$cwd <path>` direct command of the Assistant `userMessage`
handler (assistant.js 81-96): create a pending session only if none
exists, then set the cwd.  (The same logic appears in the legacy
`app.message` handler.) -/
def assistantCwdCommand (row : Option SessionRow) (path : String) :
    Option SessionRow :=
  let row := if row.isNone then upsertSession row "pending" else row
  setCwd row path

/-- The `cwd_pick` picker action (app.ts 106-125): create-if-missing, set
cwd, then unconditionally reset the session to "pending". -/
def cwdPickAction (row : Option SessionRow) (path : String) : Option SessionRow :=
  let row := if row.isNone then upsertSession row "pending" else row
  let row := setCwd row path
  upsertSession row "pending"

/-- The `cwd_modal` submission for a thread (app.ts 258-266, non-top-level
branch): identical reset discipline to the picker. -/
def cwdModalSubmit (row : Option SessionRow) (path : String) : Option SessionRow :=
  let row := if row.isNone then upsertSession row "pending" else row
  let row := setCwd row path
  upsertSession row "pending"

/-- The `$cwd <path>` branch of the `app_mention` handler (app.ts
394-400): also resets the session to "pending". -/
def mentionCwdCommand (row : Option SessionRow) (path : String) : Option SessionRow :=
  let row := if row.isNone then upsertSession row "pending" else row
  let row := setCwd row path
  upsertSession row "pending"

/-! # Lemmas

## The newline splitter -/

theorem splitNL_ne_nil (cs : List Char) : splitNL cs ≠ [] := by
  induction cs with
  | nil => simp [splitNL]
  | cons c rest ih =>
    simp only [splitNL]
    split
    · simp
    · cases h : splitNL rest <;> simp

theorem splitNL_cons_nl (rest : List Char) :
    splitNL ('\n' :: rest) = [] :: splitNL rest := by
  simp [splitNL]

theorem splitNL_cons_other {c : Char} (h : c ≠ '\n') (rest : List Char) :
    splitNL (c :: rest) =
      (c :: (splitNL rest).headD []) :: (splitNL rest).tail := by
  simp only [splitNL, if_neg h]
  cases hr : splitNL rest with
  | nil => exact absurd hr (splitNL_ne_nil rest)
  | cons a b => rfl

theorem getLastD_irrel {α : Type} {t : List α} (h : t ≠ []) (a b : α) :
    t.getLastD a = t.getLastD b := by
  cases t with
  | nil => exact absurd rfl h
  | cons u v => rw [List.getLastD_cons, List.getLastD_cons]

theorem headD_cons_tail {α : Type} {l : List α} (h : l ≠ []) (d : α) :
    l.headD d :: l.tail = l := by
  cases l with
  | nil => exact absurd rfl h
  | cons a b => rfl

theorem dropLast_cons_ne_nil {α : Type} {l : List α} (h : l ≠ []) (a : α) :
    (a :: l).dropLast = a :: l.dropLast := by
  cases l with
  | nil => exact absurd rfl h
  | cons b t => rfl

theorem splitNL_last_no_nl (cs : List Char) : '\n' ∉ (splitNL cs).getLastD [] := by
  induction cs with
  | nil => simp [splitNL]
  | cons c rest ih =>
    by_cases hc : c = '\n'
    · subst hc
      rw [splitNL_cons_nl, List.getLastD_cons,
        getLastD_irrel (splitNL_ne_nil rest)]
      exact ih
    · rw [splitNL_cons_other hc]
      cases hr : splitNL rest with
      | nil => exact absurd hr (splitNL_ne_nil rest)
      | cons hd tl =>
        rw [hr] at ih
        cases tl with
        | nil =>
          simp only [List.headD, List.tail, List.getLastD_cons] at ih ⊢
          simp only [List.getLastD] at ih ⊢
          intro hmem
          rcases List.mem_cons.mp hmem with h1 | h1
          · exact hc h1.symm
          · exact ih h1
        | cons t1 t2 =>
          simp only [List.headD, List.tail, List.getLastD_cons] at ih ⊢
          exact ih

theorem splitNL_no_nl {l : List Char} (h : ∀ c ∈ l, c ≠ '\n') :
    splitNL l = [l] := by
  induction l with
  | nil => rfl
  | cons c rest ih =>
    have hc : c ≠ '\n' := h c (by simp)
    have hrest : splitNL rest = [rest] := ih (fun x hx => h x (by simp [hx]))
    rw [splitNL_cons_other hc, hrest]
    rfl

theorem getLastD_nil {α : Type} (d : α) : ([] : List α).getLastD d = d := rfl

theorem getLastD_singleton {α : Type} (a d : α) : [a].getLastD d = a := by
  rw [List.getLastD_cons]; rfl

theorem splitNL_append (xs ys : List Char) :
    splitNL (xs ++ ys) =
      (splitNL xs).dropLast ++
        ((splitNL xs).getLastD [] ++ (splitNL ys).headD []) :: (splitNL ys).tail := by
  induction xs with
  | nil =>
    show splitNL ys = ([[]] : List (List Char)).dropLast ++
      (([[]] : List (List Char)).getLastD [] ++ (splitNL ys).headD []) :: (splitNL ys).tail
    rw [List.dropLast_single, getLastD_singleton, List.nil_append, List.nil_append,
      headD_cons_tail (splitNL_ne_nil ys)]
  | cons c xs ih =>
    by_cases hc : c = '\n'
    · subst hc
      rw [List.cons_append, splitNL_cons_nl, splitNL_cons_nl, ih,
        dropLast_cons_ne_nil (splitNL_ne_nil xs), List.getLastD_cons,
        getLastD_irrel (splitNL_ne_nil xs) ([] : List Char) ([] : List Char),
        List.cons_append]
    · rw [List.cons_append, splitNL_cons_other hc, splitNL_cons_other hc, ih]
      cases hx : splitNL xs with
      | nil => exact absurd hx (splitNL_ne_nil xs)
      | cons hd tl =>
        cases hy : splitNL ys with
        | nil => exact absurd hy (splitNL_ne_nil ys)
        | cons yh yt =>
          cases tl with
          | nil =>
            simp only [List.dropLast_single, List.getLastD_cons, getLastD_nil,
              List.headD_cons, List.tail_cons, List.nil_append, List.cons_append]
          | cons t1 t2 =>
            simp only [List.headD_cons, List.tail_cons, List.getLastD_cons,
              dropLast_cons_ne_nil (List.cons_ne_nil t1 t2), List.cons_append,
              List.dropLast_cons₂]

theorem getLastD_append {α : Type} (l l' : List α) (h : l' ≠ []) (d : α) :
    (l ++ l').getLastD d = l'.getLastD d := by
  induction l generalizing d with
  | nil => rfl
  | cons x xs ih =>
    rw [List.cons_append, List.getLastD_cons, ih x, getLastD_irrel h x d]

/-! ## The line loop and chunk feeding -/

theorem runLines_append (st : StreamState) (now : Nat) (l1 l2 : List (List Char)) :
    runLines st now (l1 ++ l2) =
      ((runLines (runLines st now l1).1 now l2).1,
       (runLines st now l1).2 ++ (runLines (runLines st now l1).1 now l2).2) := by
  induction l1 generalizing st with
  | nil => simp [runLines]
  | cons l ls ih =>
    by_cases hws : l.all jsWsChar
    · simp only [List.cons_append, runLines, if_pos hws]
      exact ih st
    · simp only [List.cons_append, runLines, if_neg hws]
      rcases hp : processLine st now l with ⟨st1, a1⟩
      simp only [List.append_eq] at *
      simp only [ih st1, List.append_assoc]

theorem feedData_append (st : StreamState) (buf : List Char) (now : Nat)
    (a b : List Char) :
    feedData st buf now (a ++ b) =
      ((feedData (feedData st buf now a).1 (feedData st buf now a).2.2 now b).1,
       (feedData st buf now a).2.1 ++
         (feedData (feedData st buf now a).1 (feedData st buf now a).2.2 now b).2.1,
       (feedData (feedData st buf now a).1 (feedData st buf now a).2.2 now b).2.2) := by
  have hb1 : ∀ c ∈ (splitNL (buf ++ a)).getLastD [], c ≠ '\n' :=
    fun c hc he => absurd (he ▸ hc) (splitNL_last_no_nl (buf ++ a))
  simp only [feedData]
  rw [show buf ++ (a ++ b) = (buf ++ a) ++ b from (List.append_assoc buf a b).symm,
    splitNL_append (buf ++ a) b,
    splitNL_append ((splitNL (buf ++ a)).getLastD []) b,
    splitNL_no_nl hb1]
  rcases hy : splitNL b with _ | ⟨yh, yt⟩
  · exact absurd hy (splitNL_ne_nil b)
  · simp only [List.dropLast_single, List.nil_append, getLastD_singleton,
      List.headD_cons, List.tail_cons, List.dropLast_append_cons]
    rw [getLastD_append _ _ (by simp), runLines_append]

theorem runChunks_single_eq (st : StreamState) (buf : List Char) (now : Nat)
    (c : List Char) :
    runChunks st buf now [c] =
      ((feedData st buf now c).1, (feedData st buf now c).2.1,
        (feedData st buf now c).2.2) := by
  rcases hf : feedData st buf now c with ⟨s1, a1, b1⟩
  simp [runChunks, hf]

/-- Chunk-boundary invariance at the feed level. -/
theorem runChunks_eq_single (cs : List (List Char)) (st : StreamState)
    (buf : List Char) (now : Nat) (hbuf : ∀ c ∈ buf, c ≠ '\n') :
    runChunks st buf now cs = runChunks st buf now [cs.flatten] := by
  induction cs generalizing st buf with
  | nil =>
    have h0 : feedData st buf now [] = (st, [], buf) := by
      simp [feedData, splitNL_no_nl hbuf, getLastD_singleton, runLines]
    simp [runChunks, h0]
  | cons c cs ih =>
    have hb1 : ∀ x ∈ (feedData st buf now c).2.2, x ≠ '\n' := by
      intro x hx he
      have : (feedData st buf now c).2.2 = (splitNL (buf ++ c)).getLastD [] := by
        simp [feedData]
      rw [this] at hx
      exact absurd (he ▸ hx) (splitNL_last_no_nl (buf ++ c))
    calc runChunks st buf now (c :: cs)
        = ((runChunks (feedData st buf now c).1 (feedData st buf now c).2.2 now cs).1,
           (feedData st buf now c).2.1 ++
             (runChunks (feedData st buf now c).1 (feedData st buf now c).2.2 now cs).2.1,
           (runChunks (feedData st buf now c).1 (feedData st buf now c).2.2 now cs).2.2) := by
          rcases hf : feedData st buf now c with ⟨s1, a1, b1⟩
          rcases hr : runChunks s1 b1 now cs with ⟨s2, a2, b2⟩
          simp [runChunks, hf, hr]
      _ = runChunks st buf now [(c :: cs).flatten] := by
          rw [ih _ _ hb1, runChunks_single_eq, runChunks_single_eq,
            show (c :: cs).flatten = c ++ cs.flatten from rfl, feedData_append]

/-! ## Single-flight admission -/

theorem stepTurn_nodup {procs : List String} (h : procs.Nodup) (e : TurnEvent) :
    ((stepTurn procs e).1).Nodup := by
  cases e with
  | userTurn k =>
    simp only [stepTurn]
    split
    · exact h
    · next hc =>
      refine List.Nodup.cons ?_ h
      simpa using hc
  | procClose k => exact h.erase k
  | procError k => exact h.erase k
  | stopRequest k =>
    simp only [stepTurn]
    split <;> exact h

theorem runTurns_nodup {procs : List String} (h : procs.Nodup)
    (evs : List TurnEvent) : ((runTurns procs evs).1).Nodup := by
  induction evs generalizing procs with
  | nil => exact h
  | cons e es ih =>
    rcases hs : stepTurn procs e with ⟨p1, a1⟩
    rcases hr : runTurns p1 es with ⟨p2, a2⟩
    have h1 : p1.Nodup := by
      have := stepTurn_nodup h e
      rwa [hs] at this
    have := ih h1
    rw [hr] at this
    simpa [runTurns, hs, hr] using this

/-- C1: for every thread key, at most one active generation handle exists
at any time; a turn arriving while the key is held is rejected with the
"still processing" notice before any subprocess is spawned; an admitted
turn inserts the entry exactly once, together with the spawn; and an entry
held for a key is removed only by that key's process-close or
process-error event — never by a stop request or by another turn. -/
theorem claim_C1_single_flight :
    (∀ (evs : List TurnEvent) (k : String), ((runTurns [] evs).1.count k) ≤ 1)
    ∧ (∀ (procs : List String) (k : String), procs.contains k = true →
        stepTurn procs (.userTurn k) = (procs, [.stillProcessingNotice k]))
    ∧ (∀ (procs : List String) (k : String), procs.contains k = false →
        stepTurn procs (.userTurn k) = (k :: procs, [.spawned k, .inserted k]))
    ∧ (∀ (procs : List String) (k : String) (e : TurnEvent),
        procs.contains k = true → ((stepTurn procs e).1.contains k) = false →
        e = .procClose k ∨ e = .procError k) := by
  refine ⟨?_, ?_, ?_, ?_⟩
  · intro evs k
    exact List.nodup_iff_count_le_one.mp (runTurns_nodup (by simp) evs) k
  · intro procs k hc
    have hmem : k ∈ procs := by simpa using hc
    simp [stepTurn, hmem]
  · intro procs k hc
    have hmem : k ∉ procs := by simpa using hc
    simp [stepTurn, hmem]
  · intro procs k e hc hc2
    have hmem : k ∈ procs := by simpa using hc
    cases e with
    | userTurn k2 =>
      exfalso
      simp only [stepTurn] at hc2
      split at hc2 <;> simp_all
    | procClose k2 =>
      left
      by_contra hne
      have hkk : k ≠ k2 := by
        intro he
        exact hne (by rw [he])
      have : k ∈ procs.erase k2 := List.mem_erase_of_ne hkk |>.mpr hmem
      simp [stepTurn] at hc2
      exact absurd (by simpa using this) (by simp [hc2])
    | procError k2 =>
      right
      by_contra hne
      have hkk : k ≠ k2 := by
        intro he
        exact hne (by rw [he])
      have : k ∈ procs.erase k2 := List.mem_erase_of_ne hkk |>.mpr hmem
      simp [stepTurn] at hc2
      exact absurd (by simpa using this) (by simp [hc2])
    | stopRequest k2 =>
      exfalso
      simp only [stepTurn] at hc2
      split at hc2 <;> simp_all

/-- Witness for C1 at concrete inputs: key "t1". -/
theorem claim_C1_single_flight_witness :
    stepTurn ["t1"] (.userTurn "t1") = (["t1"], [.stillProcessingNotice "t1"])
    ∧ stepTurn [] (.userTurn "t1") = (["t1"], [.spawned "t1", .inserted "t1"])
    ∧ (TurnEvent.procClose "t1" = .procClose "t1"
        ∨ TurnEvent.procClose "t1" = .procError "t1") :=
  ⟨claim_C1_single_flight.2.1 ["t1"] "t1" (by decide),
   claim_C1_single_flight.2.2.1 [] "t1" (by decide),
   claim_C1_single_flight.2.2.2 ["t1"] "t1" (.procClose "t1") (by decide) (by decide)⟩

/-- C2 (corrected): chunk-boundary invariance holds for every splitting
whose chunks each decode independently to what the whole payload decodes
to — in particular for every split at character boundaries — but not at
arbitrary byte offsets: `jsonBuffer` concatenates the results of
per-chunk `chunk.toString()` calls (stream.ts 320), so a boundary inside
a multi-byte UTF-8 character turns each half into U+FFFD and changes the
processed line (see the counterexample). -/
theorem claim_C2_chunk_invariance (st : StreamState) (now : Nat)
    (bss : List (List Nat))
    (h : (bss.map utf8Decode).flatten = utf8Decode bss.flatten) :
    runChunksBytes st [] now bss = runChunksBytes st [] now [bss.flatten] := by
  show runChunks st [] now (bss.map utf8Decode)
      = runChunks st [] now ([bss.flatten].map utf8Decode)
  rw [List.map_cons, List.map_nil, ← h]
  exact runChunks_eq_single (bss.map utf8Decode) st [] now (by simp)

/-- Witness for the corrected C2 at a concrete character-boundary split:
the bytes of `"a"` and of `"é\n"` as separate chunks. -/
theorem claim_C2_chunk_invariance_witness :
    ((([[0x61], [0xc3, 0xa9, 0x0a]] : List (List Nat)).map utf8Decode).flatten
        = utf8Decode ([[0x61], [0xc3, 0xa9, 0x0a]] : List (List Nat)).flatten)
    ∧ runChunksBytes (initialStreamState "sess" (some "pending") true) [] 0
          [[0x61], [0xc3, 0xa9, 0x0a]]
        = runChunksBytes (initialStreamState "sess" (some "pending") true) [] 0
          [([[0x61], [0xc3, 0xa9, 0x0a]] : List (List Nat)).flatten] :=
  ⟨by decide,
   claim_C2_chunk_invariance (initialStreamState "sess" (some "pending") true) 0
     [[0x61], [0xc3, 0xa9, 0x0a]] (by decide)⟩

set_option maxHeartbeats 4000000 in
/-- Counterexample to the original byte-offset form of C2: splitting the
payload `{"type":"é"}` + newline between the two bytes of `é` makes the
two chunks decode to `...�` and `�...`, so the chunked run
emits the unknown-type event for `"��"` where the whole run
emits it for `"é"`. -/
theorem claim_C2_chunk_invariance_counterexample :
    runChunksBytes (initialStreamState "sess" (some "pending") true) [] 0
        [c2SplitA, c2SplitB]
      ≠ runChunksBytes (initialStreamState "sess" (some "pending") true) [] 0
        [c2SplitA ++ c2SplitB] := by
  intro h
  have hL : (runChunksBytes (initialStreamState "sess" (some "pending") true) [] 0
      [c2SplitA, c2SplitB]).2.1 = [Action.unknownType "��"] := rfl
  have hR : (runChunksBytes (initialStreamState "sess" (some "pending") true) [] 0
      [c2SplitA ++ c2SplitB]).2.1 = [Action.unknownType "é"] := rfl
  rw [h, hR] at hL
  simp only [List.cons.injEq, and_true, Action.unknownType.injEq] at hL
  exact absurd hL (by decide)

/-- C3: a line that fails to parse as JSON is skipped without aborting the
stream — deleting any unparseable line from the input leaves the run
unchanged — and the concrete three lines `{"type":"a"}`, `not-json`,
`{"type":"b"}` yield exactly the two normalized events for "a" and "b". -/
theorem claim_C3_malformed_line_skipped :
    (∀ (st : StreamState) (now : Nat) (pre post : List (List Char))
        (bad : List Char), parseJson bad = none →
        runLines st now (pre ++ bad :: post) = runLines st now (pre ++ post))
    ∧ (∀ (st : StreamState) (now : Nat),
        (runLines st now
          ["\x7b\"type\":\"a\"\x7d".toList, "not-json".toList, "\x7b\"type\":\"b\"\x7d".toList]).2
          = [.unknownType "a", .unknownType "b"]) := by
  constructor
  · intro st now pre post bad hbad
    have hskip : ∀ s : StreamState, runLines s now (bad :: post) = runLines s now post := by
      intro s
      by_cases hws : bad.all jsWsChar
      · simp [runLines, hws]
      · simp only [runLines, if_neg hws, processLine, hbad]
        rcases hr : runLines s now post with ⟨s2, a2⟩
        simp [hr]
    rw [runLines_append st now pre (bad :: post), runLines_append st now pre post,
      hskip]
  · intro st now
    rfl

/-- Witness for C3's universal part: deleting the middle `not-json` line
leaves the run unchanged. -/
theorem claim_C3_malformed_line_skipped_witness :
    parseJson "not-json".toList = none
    ∧ runLines (initialStreamState "sess" (some "pending") true) 0
        (["\x7b\"type\":\"a\"\x7d".toList] ++ "not-json".toList :: ["\x7b\"type\":\"b\"\x7d".toList])
      = runLines (initialStreamState "sess" (some "pending") true) 0
        (["\x7b\"type\":\"a\"\x7d".toList] ++ ["\x7b\"type\":\"b\"\x7d".toList]) :=
  ⟨rfl, claim_C3_malformed_line_skipped.1 _ 0 _ _ _ rfl⟩

/-! ## Tool lifecycle (C4) -/

/-- The `task_update` chunks appended for a given task id. -/
def taskUpdatesFor (id : String) (acts : List Action) : List TaskChunk :=
  acts.filterMap (fun a => match a with
    | .append (.task c) => if c.id = id then some c else none
    | _ => none)

/-- `content_block_start(tool_use "MyTool", index=2)`. -/
def c4StartLine : List Char :=
  ("\x7b\"type\":\"stream_event\",\"event\":\x7b\"type\":\"content_block_start\"," ++
   "\"index\":2,\"content_block\":\x7b\"type\":\"tool_use\",\"name\":\"MyTool\"," ++
   "\"id\":\"tu_1\"\x7d\x7d\x7d").toList

/-- `content_block_delta(index=2, input_json_delta '{"x":1}')`. -/
def c4DeltaLine : List Char :=
  ("\x7b\"type\":\"stream_event\",\"event\":\x7b\"type\":\"content_block_delta\"," ++
   "\"index\":2,\"delta\":\x7b\"type\":\"input_json_delta\"," ++
   "\"partial_json\":\"\x7b\\\"x\\\":1\x7d\"\x7d\x7d\x7d").toList

/-- `content_block_stop(index=2)`. -/
def c4StopLine : List Char :=
  "\x7b\"type\":\"stream_event\",\"event\":\x7b\"type\":\"content_block_stop\",\"index\":2\x7d\x7d".toList

/-- Variant of the start line naming the `Read` tool. -/
def c4StartReadLine : List Char :=
  ("\x7b\"type\":\"stream_event\",\"event\":\x7b\"type\":\"content_block_start\"," ++
   "\"index\":2,\"content_block\":\x7b\"type\":\"tool_use\",\"name\":\"Read\"," ++
   "\"id\":\"tu_2\"\x7d\x7d\x7d").toList

/-- Variant of the delta line carrying an unparseable input fragment. -/
def c4BadDeltaLine : List Char :=
  ("\x7b\"type\":\"stream_event\",\"event\":\x7b\"type\":\"content_block_delta\"," ++
   "\"index\":2,\"delta\":\x7b\"type\":\"input_json_delta\"," ++
   "\"partial_json\":\"not json\"\x7d\x7d\x7d").toList

set_option maxHeartbeats 4000000 in
/-- C4: for `content_block_start(tool, index=2)`, a `{"x":1}` input delta
and `content_block_stop(index=2)`, exactly one tool-started and one
tool-finished update are emitted for that invocation; the accumulated
fragment parses to `{x:1}`; an unknown tool name titles as the raw name;
an unparseable accumulated fragment falls back to the empty object, so
the title is `toolTitle name {}`. -/
theorem claim_C4_tool_lifecycle :
    (taskUpdatesFor "task_1"
        (runLines (initialStreamState "sess" (some "pending") true) 0
          [c4StartLine, c4DeltaLine, c4StopLine]).2
      = [{ id := "task_1", title := "Using MyTool...", status := .inProgress },
         { id := "task_1", title := "MyTool", status := .complete }])
    ∧ parseJson "\x7b\"x\":1\x7d".toList = some (.obj [("x", .num 1)])
    ∧ toolTitle "MyTool" (.obj [("x", .num 1)]) = "MyTool"
    ∧ (taskUpdatesFor "task_1"
        (runLines (initialStreamState "sess" (some "pending") true) 0
          [c4StartReadLine, c4BadDeltaLine, c4StopLine]).2
      = [{ id := "task_1", title := "Using Read...", status := .inProgress },
         { id := "task_1", title := "Read file", status := .complete }])
    ∧ toolTitle "Read" (.obj []) = "Read file"
    ∧ toolTitle "Read" (.obj []) = toolTitleJs (.str "Read")
        ((parseJson "not json".toList).getD (.obj [])) :=
  ⟨rfl, rfl, rfl, rfl, rfl, rfl⟩

/-! ## $cwd token reset (C9) -/

/-- C9 (code evaluation at the failing input): with an existing session
row holding the concrete token "abc-123", the Assistant `$cwd /tmp/other`
direct command changes the working directory but leaves the token
"abc-123" — it does not reset it to "pending" — while the picker, the
modal submission, and the `app_mention` `$cwd` command all reset the token
to "pending" on the same input. -/
theorem claim_C9_cwd_reset_divergence :
    assistantCwdCommand (some { sessionId := "abc-123", cwd := some "/old" }) "/tmp/other"
      = some { sessionId := "abc-123", cwd := some "/tmp/other" }
    ∧ cwdPickAction (some { sessionId := "abc-123", cwd := some "/old" }) "/tmp/other"
      = some { sessionId := "pending", cwd := some "/tmp/other" }
    ∧ cwdModalSubmit (some { sessionId := "abc-123", cwd := some "/old" }) "/tmp/other"
      = some { sessionId := "pending", cwd := some "/tmp/other" }
    ∧ mentionCwdCommand (some { sessionId := "abc-123", cwd := some "/old" }) "/tmp/other"
      = some { sessionId := "pending", cwd := some "/tmp/other" }
    ∧ (assistantCwdCommand (some { sessionId := "abc-123", cwd := some "/old" })
        "/tmp/other").map SessionRow.sessionId ≠ some "pending" := by
  refine ⟨rfl, rfl, rfl, rfl, ?_⟩
  decide

/-! ## toolTitle totality (C10) -/

/-- C10: `toolTitle` is total — it is a Lean function returning a string
for every name and every input value, including `null`, `undefined` and
non-object inputs; a tool name outside the known set yields exactly the
raw name; and whenever the per-tool case throws (`toolTitleBody` errors),
the raw name is returned. -/
theorem claim_C10_toolTitle_total :
    (∀ (name : String) (input : JsValue), name ∉ knownToolNames →
        toolTitle name input = name)
    ∧ (∀ (name : String) (input : JsValue), toolTitleBody name input = .error () →
        toolTitle name input = name)
    ∧ toolTitle "Read" .null = "Read"
    ∧ toolTitle "Read" .jsUndefined = "Read"
    ∧ toolTitle "Bash" (.num 7) = "Run: "
    ∧ toolTitle "AskUserQuestion" (.num 5) = "Asking a question..." := by
  refine ⟨?_, ?_, rfl, rfl, rfl, rfl⟩
  · intro name input h
    simp only [knownToolNames, List.mem_cons, List.not_mem_nil, or_false,
      not_or] at h
    obtain ⟨h1, h2, h3, h4, h5, h6, h7, h8, h9, h10, h11, h12, h13⟩ := h
    simp [toolTitle, toolTitleBody, h1, h2, h3, h4, h5, h6, h7, h8, h9, h10,
      h11, h12, h13]
  · intro name input h
    simp [toolTitle, h]

/-- Witness for C10: an unknown tool name returns the raw name; a `null`
input makes the Read case throw and fall back to the raw name. -/
theorem claim_C10_toolTitle_total_witness :
    toolTitle "SomeNewTool" (.obj []) = "SomeNewTool"
    ∧ toolTitle "Read" .null = "Read" :=
  ⟨claim_C10_toolTitle_total.1 "SomeNewTool" (.obj []) (by decide),
   claim_C10_toolTitle_total.2.1 "Read" .null rfl⟩

/-! ## Sink fallback permanence (C6) -/

/-- The channel outcome carried by a sink event. -/
def sinkEventOk : SinkEvent → Bool
  | .chunkAppend ok => ok
  | .textDelta _ ok _ => ok

theorem sinkStep_failed_persists {st : SinkState} (h : st.streamFailed = true)
    (e : SinkEvent) :
    (sinkStep st e).1.streamFailed = true
      ∧ SinkAction.incAppend ∉ (sinkStep st e).2 := by
  cases e with
  | chunkAppend ok => simp [sinkStep, h]
  | textDelta t ok now =>
    simp only [sinkStep, h]
    split_ifs <;> simp_all

theorem sinkStep_fail_outcome (st : SinkState) {e : SinkEvent}
    (h : sinkEventOk e = false) : (sinkStep st e).1.streamFailed = true := by
  cases e with
  | chunkAppend ok =>
    simp only [sinkEventOk] at h
    subst h
    by_cases hf : st.streamFailed = true <;> simp [sinkStep, hf]
  | textDelta t ok now =>
    simp only [sinkEventOk] at h
    subst h
    by_cases hf : st.streamFailed = true <;>
      simp only [sinkStep, hf] <;> split_ifs <;> simp_all

theorem runSink_failed_persists {st : SinkState} (h : st.streamFailed = true)
    (es : List SinkEvent) :
    (runSink st es).1.streamFailed = true
      ∧ SinkAction.incAppend ∉ (runSink st es).2 := by
  induction es generalizing st with
  | nil => simp [runSink, h]
  | cons e es ih =>
    rcases hs : sinkStep st e with ⟨s1, a1⟩
    have hstep := sinkStep_failed_persists h e
    rw [hs] at hstep
    rcases hr : runSink s1 es with ⟨s2, a2⟩
    have hrest := ih hstep.1
    rw [hr] at hrest
    refine ⟨by simp only [runSink, hs, hr]; exact hrest.1, ?_⟩
    simp only [runSink, hs, hr, List.mem_append]
    rintro (hm | hm)
    · exact hstep.2 hm
    · exact hrest.2 hm

theorem runSink_append (st : SinkState) (l1 l2 : List SinkEvent) :
    runSink st (l1 ++ l2) =
      ((runSink (runSink st l1).1 l2).1,
       (runSink st l1).2 ++ (runSink (runSink st l1).1 l2).2) := by
  induction l1 generalizing st with
  | nil => simp [runSink]
  | cons e es ih =>
    rcases hs : sinkStep st e with ⟨s1, a1⟩
    simp [runSink, hs, ih s1, List.append_assoc]

/-- C6: fallback downgrade is permanent within a turn — after any sink
input whose append outcome is a failure, `streamFailed` is `true`, and no
later input ever applies an append to the incremental channel again, even
when its own outcome would have succeeded; `streamFailed` never resets. -/
theorem claim_C6_fallback_permanent :
    ∀ (st : SinkState) (pre : List SinkEvent) (ev : SinkEvent)
      (rest : List SinkEvent), sinkEventOk ev = false →
      ((runSink st (pre ++ [ev])).1.streamFailed = true
        ∧ SinkAction.incAppend ∉ (runSink (runSink st (pre ++ [ev])).1 rest).2
        ∧ (runSink (runSink st (pre ++ [ev])).1 rest).1.streamFailed = true) := by
  intro st pre ev rest h
  have h1 : (runSink st (pre ++ [ev])).1.streamFailed = true := by
    rw [runSink_append]
    have := sinkStep_fail_outcome ((runSink st pre).1) h
    rcases hs : sinkStep (runSink st pre).1 ev with ⟨s1, a1⟩
    rw [hs] at this
    simpa [runSink, hs] using this
  exact ⟨h1, (runSink_failed_persists h1 rest).2, (runSink_failed_persists h1 rest).1⟩

/-- A sink in its initial optimistic state. -/
def sink0 : SinkState :=
  { streamFailed := false, streamerActive := false, accumulated := "",
    lastUpdateTime := 0, updateCount := 0, done := false }

/-- Witness for C6: a failing chunk append downgrades the turn; later
events (with succeeding outcomes) never touch the incremental channel. -/
theorem claim_C6_fallback_permanent_witness :
    sinkEventOk (.chunkAppend false) = false
    ∧ ((runSink sink0 ([] ++ [SinkEvent.chunkAppend false])).1.streamFailed = true
        ∧ SinkAction.incAppend ∉
            (runSink (runSink sink0 ([] ++ [SinkEvent.chunkAppend false])).1
              [SinkEvent.chunkAppend true, SinkEvent.textDelta "x" true 1000]).2
        ∧ (runSink (runSink sink0 ([] ++ [SinkEvent.chunkAppend false])).1
            [SinkEvent.chunkAppend true, SinkEvent.textDelta "x" true 1000]).1.streamFailed
          = true) :=
  ⟨rfl, claim_C6_fallback_permanent sink0 [] (.chunkAppend false)
    [SinkEvent.chunkAppend true, SinkEvent.textDelta "x" true 1000] rfl⟩

/-! ## Cancellation rendering and slot release (C7) -/

/-- C7: a subprocess terminated by SIGTERM after accumulating
"partial answer" renders exactly "partial answer\n\n_Stopped by user._"
(on both the fallback and the incremental path), the marker alone when no
text accumulated; the thread's slot is free immediately after the close
event, and a cancellation request alone never releases it. -/
theorem claim_C7_cancellation :
    finalFallbackText (closeStopped (some "SIGTERM")) "partial answer" none
      = "partial answer\n\n_Stopped by user._"
    ∧ finalStreamedText (closeStopped (some "SIGTERM")) "partial answer"
      = "partial answer\n\n_Stopped by user._"
    ∧ finalFallbackText (closeStopped (some "SIGTERM")) "" none
      = "_Stopped by user._"
    ∧ (∀ (procs : List String) (k : String), procs.Nodup →
        ((stepTurn procs (.procClose k)).1.contains k) = false)
    ∧ (∀ (procs : List String) (k : String),
        (stepTurn procs (.stopRequest k)).1 = procs) := by
  refine ⟨rfl, rfl, rfl, ?_, ?_⟩
  · intro procs k h
    have : k ∉ procs.erase k := h.not_mem_erase
    simpa [stepTurn] using this
  · intro procs k
    simp only [stepTurn]
    split <;> rfl

/-- Witness for C7's slot-release part at a concrete held slot. -/
theorem claim_C7_cancellation_witness :
    ((stepTurn ["t1"] (.procClose "t1")).1.contains "t1") = false :=
  claim_C7_cancellation.2.2.2.1 ["t1"] "t1" (by decide)

/-! ## Frame lemmas for the dispatcher -/

theorem initStreamer_stored (st : StreamState) (m : DisplayMode) :
    (initStreamer st m).storedSession = st.storedSession := by
  unfold initStreamer
  split <;> rfl

theorem safeAppendOne_stored (st : StreamState) (p : AppendPayload) :
    (safeAppendOne st p).1.storedSession = st.storedSession := by
  unfold safeAppendOne
  split_ifs <;> simp [initStreamer_stored]

theorem safeAppendOne_counter (st : StreamState) (p : AppendPayload) :
    (safeAppendOne st p).1.taskIdCounter = st.taskIdCounter := by
  unfold safeAppendOne
  split_ifs <;> simp [initStreamer]
  split <;> rfl

theorem safeAppendOne_completed (st : StreamState) (p : AppendPayload) :
    (safeAppendOne st p).1.completedTools = st.completedTools := by
  unfold safeAppendOne
  split_ifs <;> simp [initStreamer]
  split <;> rfl

theorem safeAppendOne_acts (st : StreamState) (p : AppendPayload) :
    ∀ a ∈ (safeAppendOne st p).2, a = .append p := by
  unfold safeAppendOne
  split_ifs <;> simp

theorem safeAppendOne_acts_len (st : StreamState) (p : AppendPayload) :
    (safeAppendOne st p).2.length ≤ 1 := by
  unfold safeAppendOne
  split_ifs <;> simp

theorem planDetectStep_stored (st : StreamState) :
    (planDetectStep st).1.storedSession = st.storedSession := by
  simp [planDetectStep, safeAppendOne_stored, initStreamer_stored]

theorem thinkingDoneStep_stored (st : StreamState) :
    (thinkingDoneStep st).1.storedSession = st.storedSession := by
  simp only [thinkingDoneStep]
  split <;> simp [safeAppendOne_stored]

theorem toolStartStep_stored (st : StreamState) (evt cb : JsValue) :
    (toolStartStep st evt cb).1.storedSession = st.storedSession := by
  simp only [toolStartStep]
  split <;> simp [safeAppendOne_stored]

theorem processCBStart_stored (st : StreamState) (evt : JsValue) :
    (processCBStart st evt).1.storedSession = st.storedSession := by
  simp only [processCBStart]
  split_ifs <;>
    simp [toolStartStep_stored, thinkingDoneStep_stored, planDetectStep_stored,
      initStreamer_stored]

theorem streamTextStep_stored (st : StreamState) (t : String) :
    (streamTextStep st t).1.storedSession = st.storedSession := rfl

theorem fallbackTextStep_stored (st : StreamState) (now : Nat) :
    (fallbackTextStep st now).1.storedSession = st.storedSession := by
  simp only [fallbackTextStep]
  split <;> rfl

theorem inputJsonDeltaStep_stored (st : StreamState) (evt d : JsValue) :
    (inputJsonDeltaStep st evt d).1.storedSession = st.storedSession := by
  simp only [inputJsonDeltaStep]
  split <;> rfl

theorem textDeltaAccum_stored (st : StreamState) (t : String) :
    (textDeltaAccum st t).storedSession = st.storedSession := rfl

theorem processCBDelta_stored (st : StreamState) (now : Nat) (evt : JsValue) :
    (processCBDelta st now evt).1.storedSession = st.storedSession := by
  simp only [processCBDelta]
  split_ifs <;>
    simp [streamTextStep_stored, fallbackTextStep_stored, thinkingDoneStep_stored,
      inputJsonDeltaStep_stored, textDeltaAccum_stored, initStreamer_stored]

theorem cbStopAskUser_stored (st : StreamState) (tool : ActiveTool)
    (title : String) (pin : JsValue) :
    (cbStopAskUser st tool title pin).1.storedSession = st.storedSession := by
  simp only [cbStopAskUser]
  split
  · rfl
  · split <;> simp [safeAppendOne_stored]

theorem cbStopTaskReg_stored (st : StreamState) (tool : ActiveTool) (pin : JsValue) :
    (cbStopTaskReg st tool pin).1.storedSession = st.storedSession := by
  simp only [cbStopTaskReg]
  split <;> rfl

theorem cbStopHidden_stored (st : StreamState) (tool : ActiveTool) :
    (cbStopHidden st tool).1.storedSession = st.storedSession := by
  simp only [cbStopHidden]
  split <;> simp [safeAppendOne_stored]

theorem cbStopNormal_stored (st : StreamState) (tool : ActiveTool)
    (title : String) (pin : JsValue) :
    (cbStopNormal st tool title pin).1.storedSession = st.storedSession := by
  simp only [cbStopNormal]
  split <;> simp [safeAppendOne_stored]

theorem processCBStop_stored (st : StreamState) (evt : JsValue) :
    (processCBStop st evt).1.storedSession = st.storedSession := by
  simp only [processCBStop]
  split
  · rfl
  · split_ifs <;>
      simp [cbStopAskUser_stored, cbStopTaskReg_stored, cbStopHidden_stored,
        cbStopNormal_stored]

theorem processAssistant_stored (st : StreamState) (data : JsValue) :
    (processAssistant st data).1.storedSession = st.storedSession := by
  simp only [processAssistant]
  repeat' split
  all_goals simp [safeAppendOne_stored]

theorem processUser_stored (st : StreamState) (data : JsValue) :
    (processUser st data).1.storedSession = st.storedSession := by
  simp only [processUser]
  repeat' split
  all_goals simp [safeAppendOne_stored]

theorem processStreamEvent_stored (st : StreamState) (now : Nat) (data : JsValue) :
    (processStreamEvent st now data).1.storedSession = st.storedSession := by
  simp only [processStreamEvent]
  repeat' split
  all_goals
    simp [safeAppendOne_stored, processCBStart_stored, processCBDelta_stored,
      processCBStop_stored]

/-! ## Session-token resolution (C8) -/

theorem isStr_eq {v : JsValue} {s : String} (h : v.isStr s = true) : v = .str s := by
  cases v <;> simp [JsValue.isStr, BEq.beq, beqJs] at h ⊢
  exact h

theorem optChain_of_getProp {v : JsValue} {k : String} {w : JsValue}
    (h : v.getProp k = .ok w) : v.optChain k = w := by
  cases v <;> simp [JsValue.getProp] at h <;>
    simp [JsValue.optChain, JsValue.getProp, h]

/-- The system-init NDJSON event carrying the subprocess's own token. -/
def systemInitEvent (tok : String) : JsValue :=
  .obj [("type", .str "system"), ("subtype", .str "init"),
        ("session_id", .str tok)]

set_option maxHeartbeats 1000000 in
/-- C8: a turn resumes (`--resume` with the stored token) exactly when a
stored token exists and is not the "pending" sentinel; otherwise the fresh
opaque id only labels the spawn (`--session-id`), the stored record stays
at "pending", and the stored token changes only when the subprocess's own
system-init event reports one (which overwrites it unconditionally). -/
theorem claim_C8_token_resolution :
    (∀ (stored : Option String) (fresh : String), stored ≠ some "" →
      ((resolveSession stored fresh).2.1 = true ↔
        ∃ t, stored = some t ∧ t ≠ "pending"))
    ∧ (∀ (t fresh : String), t ≠ "" → t ≠ "pending" →
        resolveSession (some t) fresh = (t, true, some t)
          ∧ claudeSessionArgs true t = ["--resume", t])
    ∧ (∀ fresh : String,
        resolveSession none fresh = (fresh, false, some "pending")
        ∧ resolveSession (some "pending") fresh = (fresh, false, some "pending")
        ∧ claudeSessionArgs false fresh = ["--session-id", fresh])
    ∧ (∀ (st : StreamState) (now : Nat) (tok : String), tok ≠ "" →
        processData st now (systemInitEvent tok) =
          ({ st with sessionId := tok, storedSession := some tok },
           [.dbUpsertSession tok]))
    ∧ (∀ (st : StreamState) (now : Nat) (data : JsValue),
        (processData st now data).1.storedSession ≠ st.storedSession →
        data.optChain "type" = .str "system"
          ∧ data.optChain "subtype" = .str "init"
          ∧ (data.optChain "session_id").truthy = true
          ∧ (processData st now data).1.storedSession
              = some (data.optChain "session_id").jsToString
          ∧ Action.dbUpsertSession (data.optChain "session_id").jsToString
              ∈ (processData st now data).2) := by
  refine ⟨?_, ?_, ?_, ?_, ?_⟩
  · intro stored fresh hne
    rcases stored with _ | t
    · simp [resolveSession]
    · have ht : t ≠ "" := fun he => hne (by rw [he])
      by_cases hp : t = "pending"
      · subst hp
        simp [resolveSession]
      · simp [resolveSession, ht, hp]
  · intro t fresh h1 h2
    constructor
    · simp [resolveSession, h1, h2]
    · rfl
  · intro fresh
    refine ⟨rfl, by simp [resolveSession], rfl⟩
  · intro st now tok h
    have htr : (JsValue.str tok).truthy = true := by
      simp [JsValue.truthy, h]
    simp [processData, systemInitEvent, JsValue.optChain, JsValue.getProp,
      JsValue.lookupLast, JsValue.isStr, BEq.beq, beqJs, htr, JsValue.jsToString]
  · intro st now data hne
    rcases hty : data.getProp "type" with _ | ty
    · exact absurd (by simp [processData, hty]) hne
    · have hoc : data.optChain "type" = ty := optChain_of_getProp hty
      by_cases hinit : ty.isStr "system" = true
          ∧ (data.optChain "subtype").isStr "init" = true
          ∧ (data.optChain "session_id").truthy = true
      · obtain ⟨h1, h2, h3⟩ := hinit
        refine ⟨by rw [hoc, isStr_eq h1], isStr_eq h2, h3, ?_, ?_⟩ <;>
          simp [processData, hty, h1, h2, h3]
      · exfalso
        apply hne
        simp only [processData, hty]
        split_ifs <;>
          first
          | rfl
          | simp_all [processStreamEvent_stored, processAssistant_stored,
              processUser_stored]

/-- Witness for C8: a concrete stored token resumes with `--resume`; a
pending store mints fresh; a concrete init event overwrites the store. -/
theorem claim_C8_token_resolution_witness :
    ((resolveSession (some "tok-1") "fresh-1").2.1 = true ↔
      ∃ t, (some "tok-1" : Option String) = some t ∧ t ≠ "pending")
    ∧ (resolveSession (some "tok-1") "fresh-1" = ("tok-1", true, some "tok-1")
        ∧ claudeSessionArgs true "tok-1" = ["--resume", "tok-1"])
    ∧ processData (initialStreamState "fresh-1" (some "pending") true) 0
        (systemInitEvent "real-1")
        = ({ initialStreamState "fresh-1" (some "pending") true with
              sessionId := "real-1", storedSession := some "real-1" },
           [.dbUpsertSession "real-1"]) :=
  ⟨claim_C8_token_resolution.1 (some "tok-1") "fresh-1" (by decide),
   claim_C8_token_resolution.2.1 "tok-1" "fresh-1" (by decide) (by decide),
   claim_C8_token_resolution.2.2.2.1 (initialStreamState "fresh-1" (some "pending") true)
     0 "real-1" (by decide)⟩

/-! ## Late tool-result updates (C5) -/

/-- A top-level tool-result user event (`parent_tool_use_id` absent,
one content block). -/
def userResultEvent (rs cb : JsValue) : JsValue :=
  .obj [("type", .str "user"), ("tool_use_result", rs),
        ("message", .obj [("content", .arr [cb])])]

theorem safeAppendOne_acts_mem (st : StreamState) (p : AppendPayload) :
    ∀ a ∈ (safeAppendOne st p).2, a = .append p := safeAppendOne_acts st p

/-- Length bound of the truncated display form. -/
theorem mk_take_dots_len (l : List Char) :
    (String.mk (l.take (MAX_OUTPUT_LEN - 3)) ++ "...").length ≤ MAX_OUTPUT_LEN := by
  have hM : MAX_OUTPUT_LEN = 120 := rfl
  rw [hM, String.length_append]
  have hm : (String.mk (l.take (120 - 3))).length = (l.take (120 - 3)).length := rfl
  have hd : ("..." : String).length = 3 := rfl
  rw [hm, hd]
  have h3 : (l.take (120 - 3)).length ≤ 120 - 3 := List.length_take_le _ _
  omega

theorem truncate_len (s2 : String) :
    (if s2.length > MAX_OUTPUT_LEN then
      String.mk (s2.toList.take (MAX_OUTPUT_LEN - 3)) ++ "..." else s2).length
      ≤ MAX_OUTPUT_LEN := by
  split_ifs with hgt
  · exact mk_take_dots_len _
  · omega

theorem finalize_len (t : JsValue) (o : String)
    (h : (if !t.truthy then Except.ok none
          else match t with
            | .str s =>
                let s := if strStartsWith s "Error: " then String.mk (s.toList.drop 7) else s
                Except.ok (some (if s.length > MAX_OUTPUT_LEN then
                  String.mk (s.toList.take (MAX_OUTPUT_LEN - 3)) ++ "..." else s))
            | _ => Except.error ()) = Except.ok (some o)) :
    o.length ≤ MAX_OUTPUT_LEN := by
  cases t with
  | str s =>
    by_cases htr : (!(JsValue.str s).truthy) = true
    · rw [if_pos htr] at h
      simp at h
    · rw [if_neg htr] at h
      simp only [Except.ok.injEq, Option.some.injEq] at h
      subst h
      exact truncate_len _
  | null => split at h <;> simp at h
  | jsUndefined => split at h <;> simp at h
  | bool b => split at h <;> simp at h
  | num n => split at h <;> simp at h
  | numRaw s => split at h <;> simp at h
  | arr xs => split at h <;> simp at h
  | obj fs => split at h <;> simp at h

theorem extractToolOutput_len (rs cb : JsValue) (o : String)
    (h : extractToolOutput rs cb = .ok (some o)) : o.length ≤ MAX_OUTPUT_LEN :=
  finalize_len _ o h

set_option maxHeartbeats 1000000 in
/-- C5: a tool-result event arriving after the same invocation's
completion (matched by correlation id in the completed-tool table) updates
the existing task entry in place: no new task id is allocated, every
emitted chunk carries the stored task id and the error/complete status of
the result, at most one chunk is emitted, the correlation entry is
removed, the displayed output is truncated to at most 120 characters, and
a leading "Error: " prefix is stripped. -/
theorem claim_C5_late_result_update :
    (∀ (st : StreamState) (now : Nat) (key rs cb : JsValue) (info : CompletedTool),
      cb.optChain "tool_use_id" = key →
      key.truthy = true →
      mapGet st.subAgentTasks key = none →
      mapGet st.completedTools key = some info →
      ((processData st now (userResultEvent rs cb)).1.taskIdCounter = st.taskIdCounter
        ∧ (processData st now (userResultEvent rs cb)).1.completedTools
            = mapDel st.completedTools key
        ∧ (∀ c : TaskChunk,
            Action.append (.task c) ∈ (processData st now (userResultEvent rs cb)).2 →
            c.id = info.taskId
              ∧ c.status = (if (cb.optChain "is_error") == JsValue.bool true
                  then TaskStatus.errorStat else .complete))
        ∧ (processData st now (userResultEvent rs cb)).2.length ≤ 1))
    ∧ (∀ (rs cb : JsValue) (o : String),
        extractToolOutput rs cb = .ok (some o) → o.length ≤ 120)
    ∧ extractToolOutput (.str "Error: boom happened") .null = .ok (some "boom happened") := by
  refine ⟨?_, ?_, rfl⟩
  · intro st now key rs cb info h1 h2 h3 h4
    have hred : processData st now (userResultEvent rs cb)
        = processUser st (userResultEvent rs cb) := rfl
    rw [hred]
    simp only [processUser, userResultEvent]
    simp only [show (JsValue.obj [("type", .str "user"), ("tool_use_result", rs),
          ("message", .obj [("content", .arr [cb])])]).optChain "parent_tool_use_id"
        = .jsUndefined from rfl,
      show (JsValue.obj [("type", .str "user"), ("tool_use_result", rs),
          ("message", .obj [("content", .arr [cb])])]).optChain "tool_use_result"
        = rs from rfl,
      show ((JsValue.obj [("type", .str "user"), ("tool_use_result", rs),
          ("message", .obj [("content", .arr [cb])])]).optChain "message").optChain
          "content" = .arr [cb] from rfl,
      show (JsValue.jsUndefined).truthy = false from rfl,
      show (JsValue.arr [cb]).optIndex 0 = cb from rfl]
    simp only [Bool.false_and, Bool.false_eq_true, if_false, h1, h2, h3, h4,
      Option.isSome_none, Bool.and_false, Bool.true_and, Option.isSome_some,
      Bool.and_true]
    simp only [show (JsValue.jsUndefined == JsValue.null) = false from rfl,
      show (JsValue.jsUndefined == JsValue.jsUndefined) = true from rfl, Bool.false_or,
      if_true]
    rcases hext : extractToolOutput rs cb with _ | out
    · simp [hext]
    · simp only [hext]
      refine ⟨?_, ?_, ?_, ?_⟩
      · split_ifs <;> simp [safeAppendOne_counter]
      · split_ifs <;> simp [safeAppendOne_completed]
      · intro c hc
        split_ifs at hc
        all_goals first
          | simp at hc
          | (have hceq := safeAppendOne_acts_mem _ _ _ hc
             simp only [Action.append.injEq, AppendPayload.task.injEq] at hceq
             subst hceq
             refine ⟨rfl, ?_⟩
             simp_all)
      · split_ifs <;> simp [safeAppendOne_acts_len]
  · intro rs cb o h
    exact extractToolOutput_len rs cb o h

/-- A dispatcher state holding one completed tool under correlation id
"tu_9". -/
def c5State : StreamState :=
  { initialStreamState "sess" (some "pending") true with
    completedTools := [(JsValue.str "tu_9",
      { taskId := "task_7", name := JsValue.str "Bash", title := "Run: ls" })] }

/-- Witness for C5 at a concrete completed tool and result event. -/
theorem claim_C5_late_result_update_witness :
    ((processData c5State 0
        (userResultEvent (.str "output text")
          (.obj [("tool_use_id", .str "tu_9")]))).1.taskIdCounter
        = c5State.taskIdCounter
      ∧ (processData c5State 0
          (userResultEvent (.str "output text")
            (.obj [("tool_use_id", .str "tu_9")]))).1.completedTools
          = mapDel c5State.completedTools (.str "tu_9")
      ∧ (∀ c : TaskChunk,
          Action.append (.task c) ∈ (processData c5State 0
            (userResultEvent (.str "output text")
              (.obj [("tool_use_id", .str "tu_9")]))).2 →
          c.id = CompletedTool.taskId
              { taskId := "task_7", name := JsValue.str "Bash", title := "Run: ls" }
            ∧ c.status = (if ((JsValue.obj [("tool_use_id", .str "tu_9")]).optChain
                "is_error") == JsValue.bool true
                then TaskStatus.errorStat else .complete))
      ∧ (processData c5State 0
          (userResultEvent (.str "output text")
            (.obj [("tool_use_id", .str "tu_9")]))).2.length ≤ 1)
    ∧ extractToolOutput (.str "x") .null = .ok (some "x") :=
  ⟨claim_C5_late_result_update.1 c5State 0 (.str "tu_9") (.str "output text")
      (.obj [("tool_use_id", .str "tu_9")])
      { taskId := "task_7", name := JsValue.str "Bash", title := "Run: ls" }
      rfl rfl rfl rfl,
   rfl⟩

end Compass
